import Mathlib

/-!
Verification of the webpack-source-code bundler core against its
natural-language specification.

The development shallowly embeds the parts of the JavaScript source that the
claims C1..C10 talk about:

* `Template.numberToIdentifier`, `Template.getModulesArrayBounds` and
  `Template.renderChunkModules` (lib/Template.js);
* the `needCalls` join helper, the inline-loader-prefix parsing and
  rule-effect filtering of the `resolve` hook, `resolveRequestArray`, and the
  `getParser`/`getGenerator` caches (lib/NormalModuleFactory.js);
* the `run`/`watch` re-entrancy guard, the `run` completion protocol and the
  per-asset write logic of `emitAssets` (lib/Compiler.js);
* `renderBootstrap` and `renderMain` (lib/javascript/JavascriptModulesPlugin.js).

JavaScript numbers that matter here are integers, embedded as `Int`/`Nat`
(the `-Infinity`/`Infinity`/`NaN` sentinels used by two functions get explicit
constructors).  Strings are Lean `String`s.  Callback-style control flow is
embedded as explicit traces (lists of emitted events / callback invocations).
-/

/-! ## Shared JavaScript value model -/

/-- A webpack module id: JavaScript `typeof id === "number"` distinguishes
numeric ids from string ids. -/
inductive ModuleId where
  | num (i : Int)
  | str (s : String)
deriving DecidableEq, Repr

/-- `"" + id` for a module id (numbers print in decimal, possibly signed). -/
def ModuleId.jsString : ModuleId → String
  | .num i => toString i
  | .str s => s

/-- `JSON.stringify` for a module id (string escaping elided: the ids used in
the claims contain no characters that need escaping). -/
def ModuleId.jsonStringify : ModuleId → String
  | .num i => toString i
  | .str s => "\"" ++ s ++ "\""

/-- JavaScript number extended with the `Infinity` sentinels that
`Template.getModulesArrayBounds` starts its min/max scan from. -/
inductive JsNum where
  | negInf
  | int (i : Int)
  | posInf
deriving DecidableEq, Repr

/-- The JavaScript `<` comparison on the extended numbers. -/
def JsNum.lt : JsNum → JsNum → Bool
  | .negInf, .negInf => false
  | .negInf, _ => true
  | .int _, .negInf => false
  | .int a, .int b => a < b
  | .int _, .posInf => true
  | .posInf, _ => false

/-- JavaScript `+` on the extended numbers (only finite/`±Infinity` mixes that
`getModulesArrayBounds` can produce are relevant; `-∞ + ∞` never occurs). -/
def JsNum.add : JsNum → JsNum → JsNum
  | .int a, .int b => .int (a + b)
  | .negInf, _ => .negInf
  | _, .negInf => .negInf
  | .posInf, _ => .posInf
  | _, .posInf => .posInf

/-- `"" + x` for an extended number. -/
def JsNum.jsString : JsNum → String
  | .negInf => "-Infinity"
  | .int i => toString i
  | .posInf => "Infinity"

/-! ## Template (lib/Template.js) -/

namespace Template

/-- `"z".charCodeAt(0) - "a".charCodeAt(0) + 1`. -/
def DELTA_A_TO_Z : Nat := 26

/-- `Template.numberToIdentifier`: maps a number to a short a-z / A-Z
identifier; for `n ≥ 52` it recurses on `n % 52` and `⌊n / 52⌋`. -/
def numberToIdentifier (n : Nat) : String :=
  if n < DELTA_A_TO_Z then
    String.mk [Char.ofNat (97 + n)]
  else if n < DELTA_A_TO_Z * 2 then
    String.mk [Char.ofNat (65 + n - DELTA_A_TO_Z)]
  else
    numberToIdentifier (n % (2 * DELTA_A_TO_Z)) ++
      numberToIdentifier (n / (2 * DELTA_A_TO_Z))
termination_by n
decreasing_by
  · have h26 : DELTA_A_TO_Z = 26 := rfl
    exact Nat.lt_of_lt_of_le (Nat.mod_lt _ (by omega)) (by omega)
  · have h26 : DELTA_A_TO_Z = 26 := rfl
    exact Nat.div_lt_self (by omega) (by omega)

/-- The min/max/typeof scan of `Template.getModulesArrayBounds`: returns
`none` as soon as a module id is not a number, otherwise the running
`(maxId, minId)` pair (started from `(-Infinity, Infinity)`). -/
def boundsScan : List ModuleId → JsNum → JsNum → Option (JsNum × JsNum)
  | [], maxId, minId => some (maxId, minId)
  | .str _ :: _, _, _ => none
  | .num i :: rest, maxId, minId =>
      boundsScan rest
        (if JsNum.lt maxId (.int i) then .int i else maxId)
        (if JsNum.lt (.int i) minId then .int i else minId)

/-- `Template.getModulesArrayBounds` over the list of module ids.  `none`
plays the role of the JavaScript return value `false`. -/
def getModulesArrayBounds (modules : List ModuleId) : Option (JsNum × JsNum) :=
  match boundsScan modules .negInf .posInf with
  | none => none
  | some (maxId, minId) =>
      let minId' :=
        if JsNum.lt minId (.int (16 + (minId.jsString.length : Int))) then
          JsNum.int 0
        else minId
      let objectOverhead : Int :=
        (modules.map (fun m => ((m.jsString.length : Int) + 2))).foldl (· + ·) (-1)
      let arrayOverhead : JsNum :=
        if minId' = JsNum.int 0 then maxId
        else JsNum.add (.int (16 + (minId'.jsString.length : Int))) maxId
      if JsNum.lt arrayOverhead (.int objectOverhead) then some (minId', maxId)
      else none

/-- One module as `renderChunkModules` sees it after the initial `map`:
its id and its rendered source (`"false"` when the render returned null). -/
structure RenderedModule where
  id : ModuleId
  source : String
deriving DecidableEq, Repr

/-- The `Map`-backed lookup of the dense branch: `modules.set` overwrites, so
`get` returns the last entry with the id. -/
def lastWithId (allModules : List RenderedModule) (i : Int) : Option RenderedModule :=
  (allModules.reverse).find? (fun m => m.id = ModuleId.num i)

/-- The body of the dense-array branch of `renderChunkModules`: one slot per
index from `minId` to `maxId`. -/
def denseSlots (allModules : List RenderedModule) (minId maxId : Int) : String :=
  String.join <|
    ((List.range (maxId - minId + 1).toNat).map (fun k =>
      let idx : Int := minId + k
      (if idx = minId then "" else ",\n") ++ "/* " ++ toString idx ++ " */" ++
        (match lastWithId allModules idx with
         | some m => "\n" ++ m.source
         | none => "")))

/-- The dense ("spare array") rendering branch of `renderChunkModules`. -/
def denseRender (allModules : List RenderedModule) (minId maxId : Int)
    (pfx : String) : String :=
  (if minId ≠ 0 then "Array(" ++ toString minId ++ ").concat(" else "") ++
    "[\n" ++ denseSlots allModules minId maxId ++ "\n" ++ pfx ++ "]" ++
    (if minId ≠ 0 then ")" else "")

/-- The sparse-object rendering branch of `renderChunkModules`. -/
def sparseRender (allModules : List RenderedModule) (pfx : String) : String :=
  "\x7b\n" ++
    String.join ((allModules.enum.map (fun p =>
      (if p.1 ≠ 0 then ",\n" else "") ++
        "\n/***/ " ++ p.2.id.jsonStringify ++ ":\n" ++ p.2.source))) ++
    "\n\n" ++ pfx ++ "\x7d"

/-- `Template.renderChunkModules`, parametric in the module type `M`, the
chunk graph's id lookup and the per-module render function.  `removed` is the
`removedModules` list of a hot-update chunk (always `[]` for a normal chunk);
it is pre-sorted by the caller's `sort(compareIds)`.  Returns `none` where the
JavaScript returns `null`. -/
def renderChunkModules {M : Type} (modules : List M) (getId : M → ModuleId)
    (render : M → Option String) (removed : List ModuleId) (pfx : String) :
    Option String :=
  if modules.isEmpty && removed.isEmpty then none
  else
    let allModules :=
      modules.map (fun m => RenderedModule.mk (getId m) ((render m).getD "false"))
        ++ removed.map (fun i => RenderedModule.mk i "false")
    match getModulesArrayBounds (allModules.map (·.id)) with
    | some (JsNum.int minId, JsNum.int maxId) =>
        some (denseRender allModules minId maxId pfx)
    | some _ =>
        -- unreachable: with at least one module the scanned bounds are finite
        some (denseRender allModules 0 0 pfx)
    | none => some (sparseRender allModules pfx)

end Template

/-- Character codes produced by `Char.ofNat` below the surrogate range are
preserved by `toNat`. -/
theorem char_toNat_ofNat {m : Nat} (h : m < 0xd800) : (Char.ofNat m).toNat = m := by
  have hv : m.isValidChar := Or.inl h
  simp [Char.ofNat, hv]
  rfl

/-- An ASCII letter, as the claim about `numberToIdentifier` uses it. -/
def isAsciiLetter (c : Char) : Prop :=
  (97 ≤ c.toNat ∧ c.toNat ≤ 122) ∨ (65 ≤ c.toNat ∧ c.toNat ≤ 90)

/-- C10: for every natural `n`, `Template.numberToIdentifier n` terminates
(witnessed by the accepted well-founded definition, with `⌊n / 52⌋ < n`) and
returns a non-empty string of ASCII letters only: a single lowercase letter
for `n < 26`, a single uppercase letter for `26 ≤ n < 52`, and for `n ≥ 52`
the concatenation `numberToIdentifier (n % 52) ++ numberToIdentifier (n / 52)`. -/
theorem numberToIdentifier_spec (n : Nat) :
    Template.numberToIdentifier n ≠ "" ∧
    (∀ c ∈ (Template.numberToIdentifier n).toList, isAsciiLetter c) ∧
    (n < 26 →
      Template.numberToIdentifier n = String.mk [Char.ofNat (97 + n)] ∧
      (Char.ofNat (97 + n)).toNat = 97 + n) ∧
    (26 ≤ n → n < 52 →
      Template.numberToIdentifier n = String.mk [Char.ofNat (65 + n - 26)] ∧
      (Char.ofNat (65 + n - 26)).toNat = 65 + n - 26) ∧
    (52 ≤ n →
      Template.numberToIdentifier n =
        Template.numberToIdentifier (n % 52) ++ Template.numberToIdentifier (n / 52) ∧
      n / 52 < n) := by
  induction n using Nat.strong_induction_on with
  | _ n ih =>
    have h26 : Template.DELTA_A_TO_Z = 26 := rfl
    by_cases h1 : n < 26
    · have h1' : n < Template.DELTA_A_TO_Z := by rw [h26]; exact h1
      have hrw : Template.numberToIdentifier n = String.mk [Char.ofNat (97 + n)] := by
        rw [Template.numberToIdentifier, if_pos h1']
      have hc : (Char.ofNat (97 + n)).toNat = 97 + n :=
        char_toNat_ofNat (by omega)
      refine ⟨by simp [hrw, String.ext_iff], ?_, fun _ => ⟨hrw, hc⟩,
        fun h _ => absurd h1 (by omega), fun h => absurd h1 (by omega)⟩
      intro c hcmem
      rw [hrw] at hcmem
      simp [String.toList] at hcmem
      subst hcmem
      exact Or.inl ⟨by omega, by omega⟩
    · by_cases h2 : n < 52
      · have h1' : ¬ n < Template.DELTA_A_TO_Z := by rw [h26]; exact h1
        have h2' : n < Template.DELTA_A_TO_Z * 2 := by
          rw [h26]
          omega
        have hrw : Template.numberToIdentifier n = String.mk [Char.ofNat (65 + n - 26)] := by
          rw [Template.numberToIdentifier, if_neg h1', if_pos h2']
          rw [h26]
        have hc : (Char.ofNat (65 + n - 26)).toNat = 65 + n - 26 :=
          char_toNat_ofNat (by omega)
        refine ⟨by simp [hrw, String.ext_iff], ?_, fun h => absurd h h1,
          fun _ _ => ⟨hrw, hc⟩, fun h => absurd h (by omega)⟩
        intro c hcmem
        rw [hrw] at hcmem
        simp [String.toList] at hcmem
        subst hcmem
        exact Or.inr ⟨by omega, by omega⟩
      · have h1' : ¬ n < Template.DELTA_A_TO_Z := by rw [h26]; exact h1
        have h2' : ¬ n < Template.DELTA_A_TO_Z * 2 := by
          rw [h26]
          omega
        have hrw : Template.numberToIdentifier n =
            Template.numberToIdentifier (n % 52) ++ Template.numberToIdentifier (n / 52) := by
          rw [Template.numberToIdentifier, if_neg h1', if_neg h2']
          norm_num [h26]
        have hmod : n % 52 < n := Nat.lt_of_lt_of_le (Nat.mod_lt _ (by omega)) (by omega)
        have hdiv : n / 52 < n := Nat.div_lt_self (by omega) (by omega)
        have ih1 := ih (n % 52) hmod
        have ih2 := ih (n / 52) hdiv
        refine ⟨?_, ?_, fun h => absurd h h1, fun _ h => absurd h h2,
          fun _ => ⟨hrw, hdiv⟩⟩
        · rw [hrw]
          intro hcontra
          have hlen : (Template.numberToIdentifier (n % 52)).length = 0 := by
            have := congrArg String.length hcontra
            simp [String.length_append] at this
            omega
          exact ih1.1 (by
            cases hmk : Template.numberToIdentifier (n % 52) with
            | mk data =>
              simp [hmk, String.length] at hlen
              simp [String.ext_iff, hmk, hlen])
        · intro c hcmem
          rw [hrw] at hcmem
          have : c ∈ (Template.numberToIdentifier (n % 52)).toList ∨
              c ∈ (Template.numberToIdentifier (n / 52)).toList := by
            simpa [String.toList, String.data_append] using hcmem
          cases this with
          | inl h => exact ih1.2.1 c h
          | inr h => exact ih2.2.1 c h

/-- Witness for C10 at the concrete input 53 (`53 = 52 + 1`, exercising the
recursive branch): `numberToIdentifier 53 = "bb"`. -/
theorem numberToIdentifier_spec_witness :
    Template.numberToIdentifier 53 ≠ "" ∧ Template.numberToIdentifier 53 = "bb" := by
  refine ⟨(numberToIdentifier_spec 53).1, ?_⟩
  simp [Template.numberToIdentifier, Template.DELTA_A_TO_Z]

/-! ### C6: the array-vs-object encoding heuristic -/

/-- A string id anywhere in the list makes the min/max scan bail out. -/
theorem boundsScan_of_str (ms : List ModuleId) (s : String)
    (h : ModuleId.str s ∈ ms) (p q : JsNum) : Template.boundsScan ms p q = none := by
  induction ms generalizing p q with
  | nil => simp at h
  | cons m rest ih =>
    cases m with
    | str t => simp [Template.boundsScan]
    | num j =>
      have : ModuleId.str s ∈ rest := by simpa using h
      simp [Template.boundsScan, ih this]

/-- On an all-numeric list the scan computes the running max and min. -/
theorem boundsScan_nums (is : List Int) : ∀ (a b : Int),
    Template.boundsScan (is.map ModuleId.num) (.int a) (.int b) =
      some (.int (is.foldl max a), .int (is.foldl min b)) := by
  induction is with
  | nil => intro a b; simp [Template.boundsScan]
  | cons j rest ih =>
    intro a b
    have hmax : (if JsNum.lt (.int a) (.int j) then JsNum.int j else .int a) =
        .int (max a j) := by
      by_cases h : a < j
      · simp [JsNum.lt, h, max_eq_right h.le]
      · simp [JsNum.lt, h, max_eq_left (not_lt.mp h)]
    have hmin : (if JsNum.lt (.int j) (.int b) then JsNum.int j else .int b) =
        .int (min b j) := by
      by_cases h : j < b
      · simp [JsNum.lt, h, min_eq_right h.le]
      · simp [JsNum.lt, h, min_eq_left (not_lt.mp h)]
    simp only [List.map_cons, Template.boundsScan, hmax, hmin, ih, List.foldl_cons]

/-- The scan started from integer accumulators yields integers or bails. -/
theorem boundsScan_shape (ms : List ModuleId) : ∀ (a b : Int),
    (∃ c d, Template.boundsScan ms (.int a) (.int b) = some (.int c, .int d)) ∨
      Template.boundsScan ms (.int a) (.int b) = none := by
  induction ms with
  | nil => intro a b; exact Or.inl ⟨a, b, rfl⟩
  | cons m rest ih =>
    intro a b
    cases m with
    | str t => exact Or.inr (by simp [Template.boundsScan])
    | num j =>
      have h1 : (if JsNum.lt (.int a) (.int j) then JsNum.int j else .int a) =
          .int (if a < j then j else a) := by
        by_cases h : a < j <;> simp [JsNum.lt, h]
      have h2 : (if JsNum.lt (.int j) (.int b) then JsNum.int j else .int b) =
          .int (if j < b then j else b) := by
        by_cases h : j < b <;> simp [JsNum.lt, h]
      simpa [Template.boundsScan, h1, h2] using ih _ _

/-- Folding `+` over integers from any seed is the seed plus the sum. -/
theorem foldl_add_int (l : List Int) : ∀ (a : Int), l.foldl (· + ·) a = a + l.sum := by
  induction l with
  | nil => intro a; simp
  | cons x xs ih => intro a; simp [List.foldl_cons, ih, List.sum_cons]; ring

theorem ModuleId.jsString_num (j : Int) : (ModuleId.num j).jsString = toString j := rfl

theorem JsNum.jsString_int (j : Int) : (JsNum.int j).jsString = toString j := rfl

theorem JsNum.add_int (a b : Int) : JsNum.add (.int a) (.int b) = .int (a + b) := rfl

theorem JsNum.lt_int (a b : Int) : JsNum.lt (.int a) (.int b) = decide (a < b) := rfl

theorem ite_jsLt_int (a b : Int) (X : Option (JsNum × JsNum)) :
    (if (JsNum.int a).lt (JsNum.int b) = true then X else none) =
      (if a < b then X else none) := by
  by_cases h : a < b <;> simp [JsNum.lt, h]

/-- Evaluation of `getModulesArrayBounds`: bail-out on a string id, and the
exact overhead comparison on an all-numeric id list. -/
theorem getModulesArrayBounds_eval :
    (∀ (ms : List ModuleId) (s : String), ModuleId.str s ∈ ms →
        Template.getModulesArrayBounds ms = none) ∧
    (∀ (i : Int) (is : List Int),
        Template.getModulesArrayBounds ((i :: is).map ModuleId.num) =
          (let maxId := is.foldl max i
           let minId0 := is.foldl min i
           let minId : Int :=
             if minId0 < 16 + ((toString minId0).length : Int) then 0 else minId0
           let objectOverhead : Int :=
             ((i :: is).map (fun j => ((toString j).length : Int) + 2)).sum - 1
           let arrayOverhead : Int :=
             if minId = 0 then maxId
             else 16 + ((toString minId).length : Int) + maxId
           if arrayOverhead < objectOverhead then
             some (JsNum.int minId, JsNum.int maxId)
           else none)) := by
  constructor
  · intro ms s h
    unfold Template.getModulesArrayBounds
    rw [boundsScan_of_str ms s h]
  · intro i is
    have hscan : Template.boundsScan ((i :: is).map ModuleId.num) .negInf .posInf =
        some (.int (is.foldl max i), .int (is.foldl min i)) := by
      simp only [List.map_cons, Template.boundsScan, JsNum.lt]
      exact boundsScan_nums is i i
    unfold Template.getModulesArrayBounds
    rw [hscan]
    simp only [List.map_map, Function.comp_def, ModuleId.jsString_num,
      JsNum.jsString_int, JsNum.add_int, JsNum.lt_int, decide_eq_true_eq,
      foldl_add_int, JsNum.int.injEq]
    have hsum : (-1 + ((i :: is).map (fun x => ((toString x).length : Int) + 2)).sum) =
        ((i :: is).map (fun x => ((toString x).length : Int) + 2)).sum - 1 := by ring
    by_cases hclamp : is.foldl min i < 16 + ((toString (is.foldl min i)).length : Int)
    · simp only [hclamp, if_true, ite_true, JsNum.lt_int, decide_eq_true_eq, hsum]
    · simp only [hclamp, if_false, ite_false, JsNum.int.injEq, JsNum.lt_int,
        JsNum.add_int, JsNum.jsString_int, decide_eq_true_eq, hsum]
      by_cases hzero : is.foldl min i = 0
      · simp only [hzero, if_true, ite_true]
        rw [ite_jsLt_int]
      · simp only [hzero, if_false, ite_false]
        rw [ite_jsLt_int]

theorem ite_some_none_shape {α : Type} (c : Prop) [Decidable c] (x : α) :
    (if c then some x else none) = none ∨ (if c then some x else none) = some x := by
  by_cases h : c <;> simp [h]

/-- A list of module ids with no string id is a mapped list of integers. -/
theorem all_num_exists_ints (ms : List ModuleId) (h : ∀ s, ModuleId.str s ∉ ms) :
    ∃ is : List Int, ms = is.map ModuleId.num := by
  induction ms with
  | nil => exact ⟨[], rfl⟩
  | cons m rest ih =>
    cases m with
    | str s => exact absurd (by simp) (h s)
    | num i =>
      obtain ⟨is, hrest⟩ := ih (fun s hs => h s (by simp [hs]))
      exact ⟨i :: is, by simp [hrest]⟩

/-- On a non-empty id list the bounds are either `false` or a pair of
integers (the `±Infinity` starting sentinels never escape). -/
theorem getModulesArrayBounds_shape (m : ModuleId) (ms : List ModuleId) :
    Template.getModulesArrayBounds (m :: ms) = none ∨
      ∃ a b, Template.getModulesArrayBounds (m :: ms) = some (JsNum.int a, JsNum.int b) := by
  by_cases hstr : ∃ s, ModuleId.str s ∈ m :: ms
  · obtain ⟨s, hs⟩ := hstr
    exact Or.inl (getModulesArrayBounds_eval.1 _ s hs)
  · push_neg at hstr
    obtain ⟨is, hms⟩ := all_num_exists_ints (m :: ms) hstr
    cases is with
    | nil => simp at hms
    | cons j js =>
      rw [hms, getModulesArrayBounds_eval.2 j js]
      simp only []
      repeat' split
      all_goals first
        | exact Or.inl rfl
        | exact Or.inr ⟨_, _, rfl⟩

/-- The two rendering branches of `renderChunkModules` are selected exactly
by the result of `getModulesArrayBounds`. -/
theorem renderChunkModules_branches (M : Type) (modules : List M) (getId : M → ModuleId)
    (render : M → Option String) (removed : List ModuleId) (pfx : String) :
    (modules = [] ∧ removed = [] →
      Template.renderChunkModules modules getId render removed pfx = none) ∧
    (let allModules := modules.map
        (fun m => Template.RenderedModule.mk (getId m) ((render m).getD "false")) ++
      removed.map (fun j => Template.RenderedModule.mk j "false")
     (∀ a b, ¬(modules = [] ∧ removed = []) →
        Template.getModulesArrayBounds (allModules.map (·.id)) =
          some (JsNum.int a, JsNum.int b) →
        Template.renderChunkModules modules getId render removed pfx =
          some (Template.denseRender allModules a b pfx)) ∧
     (¬(modules = [] ∧ removed = []) →
        Template.getModulesArrayBounds (allModules.map (·.id)) = none →
        Template.renderChunkModules modules getId render removed pfx =
          some (Template.sparseRender allModules pfx))) := by
  refine ⟨?_, ?_, ?_⟩
  · rintro ⟨h1, h2⟩
    subst h1; subst h2
    simp [Template.renderChunkModules]
  · intro a b hne hbounds
    have hguard : ¬((modules.isEmpty && removed.isEmpty) = true) := by
      simp only [Bool.and_eq_true, List.isEmpty_iff]
      exact fun h => hne ⟨h.1, h.2⟩
    unfold Template.renderChunkModules
    rw [if_neg hguard]
    simp only [hbounds]
  · intro hne hbounds
    have hguard : ¬((modules.isEmpty && removed.isEmpty) = true) := by
      simp only [Bool.and_eq_true, List.isEmpty_iff]
      exact fun h => hne ⟨h.1, h.2⟩
    unfold Template.renderChunkModules
    rw [if_neg hguard]
    simp only [hbounds]

/-- C6: `Template.getModulesArrayBounds` is a pure function over the module
id list; it returns `false` whenever some id is not a number; otherwise it
clamps `minId` to 0 when `minId < 16 + digitLength minId`, computes the
object overhead `(Σ (digitLength id + 2)) - 1` and the array overhead
(`maxId` when `minId = 0`, else `16 + digitLength minId + maxId`), and
returns `[minId, maxId]` exactly when the array overhead is strictly smaller;
`Template.renderChunkModules` emits the dense array encoding exactly when
bounds are returned, and the sparse object encoding otherwise. -/
theorem claimC6_modules_array_bounds :
    (∀ (ms : List ModuleId) (s : String), ModuleId.str s ∈ ms →
        Template.getModulesArrayBounds ms = none) ∧
    (∀ (i : Int) (is : List Int),
        Template.getModulesArrayBounds ((i :: is).map ModuleId.num) =
          (let maxId := is.foldl max i
           let minId0 := is.foldl min i
           let minId : Int :=
             if minId0 < 16 + ((toString minId0).length : Int) then 0 else minId0
           let objectOverhead : Int :=
             ((i :: is).map (fun j => ((toString j).length : Int) + 2)).sum - 1
           let arrayOverhead : Int :=
             if minId = 0 then maxId
             else 16 + ((toString minId).length : Int) + maxId
           if arrayOverhead < objectOverhead then
             some (JsNum.int minId, JsNum.int maxId)
           else none)) ∧
    (∀ (m : ModuleId) (ms : List ModuleId),
        Template.getModulesArrayBounds (m :: ms) = none ∨
          ∃ a b, Template.getModulesArrayBounds (m :: ms) =
            some (JsNum.int a, JsNum.int b)) ∧
    (∀ (M : Type) (modules : List M) (getId : M → ModuleId)
        (render : M → Option String) (removed : List ModuleId) (pfx : String),
        (modules = [] ∧ removed = [] →
          Template.renderChunkModules modules getId render removed pfx = none) ∧
        (let allModules := modules.map
            (fun m => Template.RenderedModule.mk (getId m) ((render m).getD "false")) ++
          removed.map (fun j => Template.RenderedModule.mk j "false")
         (∀ a b, ¬(modules = [] ∧ removed = []) →
            Template.getModulesArrayBounds (allModules.map (·.id)) =
              some (JsNum.int a, JsNum.int b) →
            Template.renderChunkModules modules getId render removed pfx =
              some (Template.denseRender allModules a b pfx)) ∧
         (¬(modules = [] ∧ removed = []) →
            Template.getModulesArrayBounds (allModules.map (·.id)) = none →
            Template.renderChunkModules modules getId render removed pfx =
              some (Template.sparseRender allModules pfx)))) :=
  ⟨getModulesArrayBounds_eval.1, getModulesArrayBounds_eval.2,
    getModulesArrayBounds_shape, renderChunkModules_branches⟩

/-- Witness for C6 at concrete inputs: a string id yields `false`; ids
`[0, 1]` give bounds `[0, 1]` (array overhead 1 beats object overhead 5);
and a one-module chunk with id 0 renders through the dense branch. -/
theorem claimC6_modules_array_bounds_witness :
    Template.getModulesArrayBounds [ModuleId.str "./a.js"] = none ∧
    Template.getModulesArrayBounds [ModuleId.num 0, ModuleId.num 1] =
      some (JsNum.int 0, JsNum.int 1) ∧
    Template.renderChunkModules [ModuleId.num 0] (fun m => m)
        (fun _ => some "module0src") [] "" =
      some (Template.denseRender [Template.RenderedModule.mk (ModuleId.num 0) "module0src"] 0 0 "") := by
  refine ⟨claimC6_modules_array_bounds.1 _ "./a.js" (by simp), ?_, ?_⟩
  · have h := claimC6_modules_array_bounds.2.1 0 [1]
    simpa using h
  · have h := (claimC6_modules_array_bounds.2.2.2 ModuleId [ModuleId.num 0]
      (fun m => m) (fun _ => some "module0src") [] "").2.1 0 0 (by simp) (by rfl)
    simpa using h

/-! ## NormalModuleFactory: the `needCalls` join helper (C9) -/

/-- The mutable `times` counter captured by the closure `needCalls` returns:
a JavaScript number that is decremented on each call and poisoned to `NaN`
on an early error (`NaN - 1 = NaN`, and `NaN === 0` / `NaN > 0` are false). -/
inductive CallsCounter where
  | int (i : Int)
  | nan
deriving DecidableEq, Repr

/-- `--times` on the counter. -/
def CallsCounter.dec : CallsCounter → CallsCounter
  | .int i => .int (i - 1)
  | .nan => .nan

/-- `times > 0` on the counter (false for `NaN`). -/
def CallsCounter.isPos : CallsCounter → Bool
  | .int i => 0 < i
  | .nan => false

/-- One invocation of the closure returned by `needCalls`: decrement, fire
the callback on exact zero, otherwise poison-and-fire on a first error.
Returns the new counter and `some arg` when `callback(arg)` was invoked. -/
def needCallsStep {E : Type} (t : CallsCounter) (err : Option E) :
    CallsCounter × Option (Option E) :=
  let t' := t.dec
  if t' = CallsCounter.int 0 then (t', some err)
  else if err.isSome && t'.isPos then (CallsCounter.nan, some err)
  else (t', none)

/-- The callback invocations (in order) over a whole call sequence. -/
def needCallsRun {E : Type} : CallsCounter → List (Option E) → List (Option E)
  | _, [] => []
  | t, e :: rest =>
      let s := needCallsStep t e
      s.2.toList ++ needCallsRun s.1 rest

/-- `needCalls times callback` observed through the list of arguments that
`callback` receives over the call sequence `calls`. -/
def needCallsEmits {E : Type} (times : Nat) (calls : List (Option E)) :
    List (Option E) :=
  needCallsRun (.int times) calls

theorem needCallsRun_nonpos {E : Type} (calls : List (Option E)) :
    ∀ (i : Int), i ≤ 0 → needCallsRun (.int i) calls = [] := by
  induction calls with
  | nil => intro i _; rfl
  | cons c rest ih =>
    intro i hi
    have h0 : ¬(CallsCounter.int (i - 1) = CallsCounter.int 0) := by
      simp only [CallsCounter.int.injEq]
      omega
    have h1 : (CallsCounter.int (i - 1)).isPos = false := by
      simp [CallsCounter.isPos]
      omega
    simp [needCallsRun, needCallsStep, CallsCounter.dec, h0, h1, ih (i - 1) (by omega)]

theorem needCallsRun_nan {E : Type} (calls : List (Option E)) :
    needCallsRun (E := E) .nan calls = [] := by
  induction calls with
  | nil => rfl
  | cons c rest ih =>
    simp [needCallsRun, needCallsStep, CallsCounter.dec, CallsCounter.isPos, ih]

/-- Decrementing an integer counter: fire at exactly zero, poison-and-fire on
an error while still positive, otherwise stay silent. -/
theorem needCallsStep_int {E : Type} (i : Int) (err : Option E) :
    needCallsStep (.int i) err =
      if i = 1 then (.int 0, some err)
      else if err.isSome = true ∧ 1 < i then (.nan, some err)
      else (.int (i - 1), none) := by
  simp only [needCallsStep, CallsCounter.dec, CallsCounter.isPos]
  by_cases h1 : i = 1
  · subst h1
    norm_num
  · have h0 : ¬(CallsCounter.int (i - 1) = CallsCounter.int 0) := by
      simp only [CallsCounter.int.injEq]
      omega
    rw [if_neg h0, if_neg h1]
    by_cases he : err.isSome = true
    · by_cases hi : 1 < i
      · have hp : (0 : Int) < i - 1 := by omega
        simp [he, hi, hp]
      · have hp : ¬((0 : Int) < i - 1) := by omega
        simp [he, hi, hp]
    · simp [he]

/-- C9: for `n ≥ 1`, the closure returned by `needCalls n callback` invokes
`callback` exactly once over any call sequence that reaches `n` calls or
reports an error first: an error passed at call index `k < n` (all earlier
calls error-free) makes `callback` fire once with that first error and all
later invocations no-ops (the counter is poisoned to `NaN` when the error
arrives strictly before the n-th call); with no error among the first `n`
calls, `callback` fires exactly on the n-th call. -/
theorem claimC9_needCalls (E : Type) (n : Nat) (calls : List (Option E)) (hn : 1 ≤ n) :
    ((∀ x ∈ calls.take n, x = none) → n ≤ calls.length →
        needCallsEmits n calls = [none]) ∧
    (∀ (k : Nat) (e : E), k < n → calls.get? k = some (some e) →
        (∀ j, j < k → ∀ x, calls.get? j = some x → x = none) →
        needCallsEmits n calls = [some e]) := by
  induction calls generalizing n with
  | nil =>
    constructor
    · intro _ hlen
      simp at hlen
      omega
    · intro k e _ hk _
      simp at hk
  | cons c rest ih =>
    obtain ⟨m, rfl⟩ : ∃ m, n = m + 1 := ⟨n - 1, by omega⟩
    have hcast : ((m + 1 : Nat) : Int) - 1 = (m : Int) := by push_cast; ring
    constructor
    · intro hnone hlen
      have hc : c = none := hnone c (by
        rw [List.take_succ_cons]
        exact List.mem_cons_self _ _)
      subst hc
      by_cases hm : m = 0
      · subst hm
        have h1 : ((0 + 1 : Nat) : Int) = 1 := by norm_num
        simp only [needCallsEmits, needCallsRun, needCallsStep_int, h1]
        norm_num [needCallsRun_nonpos rest 0 le_rfl]
      · have h1 : ¬(((m + 1 : Nat) : Int) = 1) := by
          push_cast
          omega
        simp only [needCallsEmits, needCallsRun, needCallsStep_int, if_neg h1,
          Option.isSome_none, Bool.false_eq_true, false_and, if_neg (not_false),
          Option.toList_none, List.nil_append, hcast]
        have htake : ∀ x ∈ rest.take m, x = none := by
          intro x hx
          exact hnone x (by
            rw [List.take_succ_cons]
            exact List.mem_cons_of_mem _ hx)
        have hlen' : m ≤ rest.length := by
          simp at hlen
          omega
        exact (ih m (by omega)).1 htake hlen'
    · intro k e hk hget hbefore
      cases k with
      | zero =>
        have hc : c = some e := by
          simpa using hget
        subst hc
        by_cases hm : m = 0
        · subst hm
          have h1 : ((0 + 1 : Nat) : Int) = 1 := by norm_num
          simp only [needCallsEmits, needCallsRun, needCallsStep_int, h1]
          norm_num [needCallsRun_nonpos rest 0 le_rfl]
        · have h1 : ¬(((m + 1 : Nat) : Int) = 1) := by
            push_cast
            omega
          have h2 : (some e : Option E).isSome = true ∧ (1 : Int) < ((m + 1 : Nat) : Int) := by
            constructor
            · rfl
            · push_cast
              omega
          simp only [needCallsEmits, needCallsRun, needCallsStep_int, if_neg h1,
            if_pos h2, Option.toList_some, List.singleton_append, needCallsRun_nan]
      | succ j =>
        have hc : c = none := hbefore 0 (by omega) c (by simp)
        subst hc
        have h1 : ¬(((m + 1 : Nat) : Int) = 1) := by
          push_cast
          omega
        simp only [needCallsEmits, needCallsRun, needCallsStep_int, if_neg h1,
          Option.isSome_none, Bool.false_eq_true, false_and, if_neg (not_false),
          Option.toList_none, List.nil_append, hcast]
        refine (ih m (by omega)).2 j e (by omega) (by simpa using hget) ?_
        intro j' hj' x hx
        exact hbefore (j' + 1) (by omega) x (by simpa using hx)

/-- Witness for C9 at `n = 2` over `Option Nat` errors: two error-free calls
fire the callback once with `null`; an error `5` on the first call fires it
once with that error and the later call is a no-op. -/
theorem claimC9_needCalls_witness :
    needCallsEmits 2 [(none : Option Nat), none] = [none] ∧
    needCallsEmits 2 [some 5, none] = [some 5] := by
  constructor
  · exact (claimC9_needCalls Nat 2 [none, none] (by norm_num)).1
      (by decide) (by norm_num)
  · exact (claimC9_needCalls Nat 2 [some 5, none] (by norm_num)).2 0 5 (by norm_num)
      rfl (fun j hj x _ => absurd hj (Nat.not_lt_zero j))

/-! ## NormalModuleFactory: inline-loader prefixes and rule filtering (C1) -/

/-- One step (right-to-left) of `.split(/!+/)`: the Bool records whether the
character to the right was part of a `!`-run, so that a whole run produces a
single split point, as the regex `!+` does. -/
def splitBangRunsStep (c : Char) : List String × Bool → List String × Bool
  | (segs, flag) =>
    if c = '!' then
      if flag then (segs, true) else ("" :: segs, true)
    else
      match segs with
      | [] => ([String.mk [c]], false)
      | s :: rest => (String.mk (c :: s.toList) :: rest, false)

/-- `str.split(/!+/)` on the character list: maximal runs of `!` separate the
segments; leading/trailing runs produce empty segments, and `""` splits to
`[""]`. -/
def splitBangRuns (cs : List Char) : List String :=
  (cs.foldr splitBangRunsStep ([""], false)).1

/-- An unresolved inline loader reference, as produced by
`identToLoaderRequest` (loader part before `?`, options after it). -/
structure LoaderRequest where
  loader : String
  options : Option String
deriving DecidableEq, Repr

/-- `identToLoaderRequest`: split a loader ident at the first `?`. -/
def identToLoaderRequest (s : String) : LoaderRequest :=
  match s.toList.findIdx? (· = '?') with
  | some idx =>
      { loader := String.mk (s.toList.take idx),
        options := some (String.mk (s.toList.drop (idx + 1))) }
  | none => { loader := s, options := none }

/-- The outcome of the inline-request parsing at the top of the
`NormalModuleFactory.resolve` hook (after match-resource stripping): the
prefix flags, the explicit inline loader elements and the unresolved
resource (`rawElements.pop()`). -/
structure ParsedLoaderRequest where
  elements : List LoaderRequest
  unresolvedResource : String
  noPreAutoLoaders : Bool
  noAutoLoaders : Bool
  noPrePostAutoLoaders : Bool
deriving DecidableEq, Repr

/-- The prefix/split logic of the `resolve` hook:
`noPreAutoLoaders` for `-!`, `noAutoLoaders` for `-!` or `!`,
`noPrePostAutoLoaders` for `!!`; the prefix (2, 1 or 0 characters) is
stripped and the rest split on `!`-runs. -/
def parseLoaderRequest (requestWithoutMatchResource : String) : ParsedLoaderRequest :=
  let cs := requestWithoutMatchResource.toList
  let firstChar := cs.get? 0
  let secondChar := cs.get? 1
  let noPreAutoLoaders := (firstChar == some '-') && (secondChar == some '!')
  let noAutoLoaders := noPreAutoLoaders || (firstChar == some '!')
  let noPrePostAutoLoaders := (firstChar == some '!') && (secondChar == some '!')
  let cut : Nat :=
    if noPreAutoLoaders || noPrePostAutoLoaders then 2
    else if noAutoLoaders then 1 else 0
  let rawElements := splitBangRuns (cs.drop cut)
  { elements := rawElements.dropLast.map identToLoaderRequest,
    unresolvedResource := rawElements.getLast?.getD "",
    noPreAutoLoaders := noPreAutoLoaders,
    noAutoLoaders := noAutoLoaders,
    noPrePostAutoLoaders := noPrePostAutoLoaders }

/-- One compiled-rule effect as `ruleSet.exec` returns it; `V` is the type of
a `use` entry's value.  (Effects with other `type`s only merge into
`settings` and do not touch the three loader lists.) -/
structure RuleEffect (V : Type) where
  type : String
  value : V
deriving DecidableEq, Repr

/-- The values of all effects of one type, in order. -/
def effectsOfType (V : Type) (t : String) (result : List (RuleEffect V)) : List V :=
  (result.filter (fun r => r.type = t)).map (·.value)

/-- The `for (const r of result)` loop of the `resolve` hook restricted to
the three loader lists `(useLoadersPost, useLoaders, useLoadersPre)`,
accumulator-passing; the `settings` merging of the remaining branch touches
neither list. -/
def filterRuleEffectsGo (V : Type) (noAutoLoaders noPreAutoLoaders noPrePostAutoLoaders : Bool)
    (acc : List V × List V × List V) :
    List (RuleEffect V) → List V × List V × List V
  | [] => acc
  | r :: rest =>
      filterRuleEffectsGo V noAutoLoaders noPreAutoLoaders noPrePostAutoLoaders
        (if r.type = "use" then
          if !noAutoLoaders && !noPrePostAutoLoaders then
            (acc.1, acc.2.1 ++ [r.value], acc.2.2)
          else acc
        else if r.type = "use-post" then
          if !noPrePostAutoLoaders then (acc.1 ++ [r.value], acc.2.1, acc.2.2) else acc
        else if r.type = "use-pre" then
          if !noPreAutoLoaders && !noPrePostAutoLoaders then
            (acc.1, acc.2.1, acc.2.2 ++ [r.value])
          else acc
        else acc)
        rest

/-- The loader-list part of the rule-effect loop, started from three empty
lists. -/
def filterRuleEffects (V : Type) (noAutoLoaders noPreAutoLoaders noPrePostAutoLoaders : Bool)
    (result : List (RuleEffect V)) : List V × List V × List V :=
  filterRuleEffectsGo V noAutoLoaders noPreAutoLoaders noPrePostAutoLoaders
    ([], [], []) result

/-- The `(useLoadersPost, useLoaders, useLoadersPre)` lists the `resolve`
hook keeps for a request, given the rule-match result. -/
def requestAutoLoaders (V : Type) (request : String) (result : List (RuleEffect V)) :
    List V × List V × List V :=
  let p := parseLoaderRequest request
  filterRuleEffects V p.noAutoLoaders p.noPreAutoLoaders p.noPrePostAutoLoaders result

/-- The concatenation order of the second `continueCallback` when no match
resource is present: `post ++ inline ++ normal ++ pre`, at the granularity of
unresolved loader references (`V = LoaderRequest`). -/
def allLoadersNoMatchResource (request : String)
    (result : List (RuleEffect LoaderRequest)) : List LoaderRequest :=
  let p := parseLoaderRequest request
  let lists := filterRuleEffects LoaderRequest p.noAutoLoaders p.noPreAutoLoaders
    p.noPrePostAutoLoaders result
  lists.1 ++ p.elements ++ lists.2.1 ++ lists.2.2

/-- Characterization of the rule-effect loop: each loader list keeps the
matching effects (in order) unless its suppression flag combination is on. -/
theorem filterRuleEffectsGo_eq (V : Type) (na np npp : Bool) (result : List (RuleEffect V)) :
    ∀ (a b c : List V),
      filterRuleEffectsGo V na np npp (a, b, c) result =
        (a ++ (if npp then [] else effectsOfType V "use-post" result),
         b ++ (if na || npp then [] else effectsOfType V "use" result),
         c ++ (if np || npp then [] else effectsOfType V "use-pre" result)) := by
  induction result with
  | nil => intro a b c; simp [filterRuleEffectsGo, effectsOfType]
  | cons r rest ih =>
    intro a b c
    rw [filterRuleEffectsGo]
    by_cases h1 : r.type = "use"
    · have h2 : ¬(r.type = "use-post") := by rw [h1]; decide
      have h3 : ¬(r.type = "use-pre") := by rw [h1]; decide
      cases na <;> cases npp <;>
        simp [h1, h2, h3, effectsOfType, List.filter_cons, ih, List.append_assoc]
    · by_cases h2 : r.type = "use-post"
      · have h3 : ¬(r.type = "use-pre") := by rw [h2]; decide
        cases npp <;>
          simp [h1, h2, h3, effectsOfType, List.filter_cons, ih, List.append_assoc]
      · by_cases h3 : r.type = "use-pre"
        · cases np <;> cases npp <;>
            simp [h1, h2, h3, effectsOfType, List.filter_cons, ih, List.append_assoc]
        · simp [h1, h2, h3, effectsOfType, List.filter_cons, ih]

/-- The loader-suppression table asserted by the specification sentence of
C1, following its words: `!!` suppresses post, normal and pre auto loaders;
`-!` suppresses the pre auto loaders only; a single `!` suppresses the
normal and pre auto loaders. -/
def specC1AutoLoaders (V : Type) (request : String) (result : List (RuleEffect V)) :
    List V × List V × List V :=
  let cs := request.toList
  let bangBang := (cs.get? 0 == some '!') && (cs.get? 1 == some '!')
  let dashBang := (cs.get? 0 == some '-') && (cs.get? 1 == some '!')
  let singleBang := (cs.get? 0 == some '!') && !bangBang
  ((if bangBang then [] else effectsOfType V "use-post" result),
   (if bangBang || singleBang then [] else effectsOfType V "use" result),
   (if bangBang || singleBang || dashBang then [] else effectsOfType V "use-pre" result))

/-- Counterexample to C1 as stated: for the request `-!./a.js` (prefix `-!`)
with one rule-matched normal (`use`) loader, the code suppresses the normal
loader list (it computes `([], [], [])`), while the claim's table (`-!`
suppresses pre only) predicts the normal loader is kept. -/
theorem claimC1_counterexample :
    requestAutoLoaders Nat "-!./a.js" [⟨"use", 0⟩] = ([], [], []) ∧
    specC1AutoLoaders Nat "-!./a.js" [⟨"use", 0⟩] = ([], [0], []) ∧
    requestAutoLoaders Nat "-!./a.js" [⟨"use", 0⟩] ≠
      specC1AutoLoaders Nat "-!./a.js" [⟨"use", 0⟩] := by
  refine ⟨?_, ?_, ?_⟩ <;> decide

/-- C1 (amended): the prefix flags are `noPreAutoLoaders` for `-!`,
`noAutoLoaders` for `-!` or `!`, `noPrePostAutoLoaders` for `!!`; rule-matched
post loaders are dropped under `!!`, normal loaders under `!`, `-!` or `!!`,
and pre loaders under `-!` or `!!` — i.e. `!!` suppresses pre, normal and
post, `-!` suppresses pre and normal, and a single `!` suppresses normal
only, while explicit inline loaders are always kept.  For the boundary
request `!!loader!./file.js` the assembled loader list is exactly the one
inline loader, with resource `./file.js`. -/
theorem claimC1_inline_loader_prefixes (V : Type) (request : String)
    (result : List (RuleEffect V)) :
    (requestAutoLoaders V request result =
      (let p := parseLoaderRequest request
       ((if p.noPrePostAutoLoaders then [] else effectsOfType V "use-post" result),
        (if p.noAutoLoaders || p.noPrePostAutoLoaders then []
         else effectsOfType V "use" result),
        (if p.noPreAutoLoaders || p.noPrePostAutoLoaders then []
         else effectsOfType V "use-pre" result)))) ∧
    (let p := parseLoaderRequest request
     p.noPreAutoLoaders =
        ((request.toList.get? 0 == some '-') && (request.toList.get? 1 == some '!')) ∧
     p.noAutoLoaders =
        (p.noPreAutoLoaders || (request.toList.get? 0 == some '!')) ∧
     p.noPrePostAutoLoaders =
        ((request.toList.get? 0 == some '!') && (request.toList.get? 1 == some '!'))) ∧
    (∀ (result' : List (RuleEffect LoaderRequest)),
      allLoadersNoMatchResource "!!loader!./file.js" result' =
        [{ loader := "loader", options := none }]) ∧
    (parseLoaderRequest "!!loader!./file.js").elements =
      [{ loader := "loader", options := none }] ∧
    (parseLoaderRequest "!!loader!./file.js").unresolvedResource = "./file.js" := by
  have hp : parseLoaderRequest "!!loader!./file.js" =
      { elements := [{ loader := "loader", options := none }],
        unresolvedResource := "./file.js",
        noPreAutoLoaders := false, noAutoLoaders := true,
        noPrePostAutoLoaders := true } := by decide
  refine ⟨?_, ⟨rfl, rfl, rfl⟩, ?_, by rw [hp], by rw [hp]⟩
  · show filterRuleEffects V _ _ _ result = _
    unfold filterRuleEffects
    simp [filterRuleEffectsGo_eq]
  · intro result'
    unfold allLoadersNoMatchResource filterRuleEffects
    rw [hp]
    simp [filterRuleEffectsGo_eq]

/-! ## NormalModuleFactory.resolveRequestArray (C7) -/

/-- A resolver error; only its (mutable) `message` matters here. -/
structure JsError where
  message : String
deriving DecidableEq, Repr

/-- A loader reference as `resolveRequestArray` consumes and produces it. -/
structure UseItem where
  loader : String
  options : Option String
  ident : Option String
deriving DecidableEq, Repr

/-- The migration guidance appended to the resolver error's message when the
`-loader`-suffixed retry succeeds. -/
def loaderGuidance (loader : String) : String :=
  "\nBREAKING CHANGE: It's no longer allowed to omit the '-loader' suffix when using loaders.\n" ++
    "                 You need to specify '" ++ loader ++ "-loader' instead of '" ++
    loader ++ "',\n" ++
    "                 see https://webpack.js.org/migrate/3/#automatic-loader-module-name-extension-removed"

/-- `/^[^\x2f]*$/.test(loader)`: the loader name contains no slash. -/
def isBareLoaderName (s : String) : Bool := !(s.toList.contains '/')

/-- The regex test for a trailing `-loader` suffix. -/
def hasLoaderSuffix (s : String) : Bool := "-loader".toList.isSuffixOf s.toList

/-- The per-item body of `resolveRequestArray`: resolve the loader; on
failure of a bare, unsuffixed name retry with `-loader` appended, rewriting
the error message when (and only when) the retry resolves; the original
error object is what reaches the callback in every failure case. -/
def resolveLoaderItem (resolver : String → Except JsError String) (item : UseItem) :
    Except JsError UseItem :=
  match resolver item.loader with
  | .error err =>
      if isBareLoaderName item.loader && !hasLoaderSuffix item.loader then
        match resolver (item.loader ++ "-loader") with
        | .ok _ => .error { message := err.message ++ loaderGuidance item.loader }
        | .error _ => .error err
      else .error err
  | .ok result =>
      let parsedResult := identToLoaderRequest result
      .ok { loader := parsedResult.loader,
            options := if item.options = none then parsedResult.options else item.options,
            ident := if item.options = none then none else item.ident }

/-- `NormalModuleFactory.resolveRequestArray` over a loader list: empty lists
short-circuit; otherwise each item resolves independently (`asyncLib.map`)
and a failing item's error reaches the caller. -/
def resolveRequestArray (resolver : String → Except JsError String)
    (array : List UseItem) : Except JsError (List UseItem) :=
  if array = [] then .ok array
  else array.mapM (resolveLoaderItem resolver)

/-- Counterexample to C7 as stated: when the `-loader` retry also fails,
the propagated resolver error keeps its original message — the migration
guidance is NOT appended (the code rewrites the message only when the retry
succeeds).  Here both `foo` and `foo-loader` fail with message `nope`. -/
theorem claimC7_counterexample :
    resolveLoaderItem (fun _ => Except.error { message := "nope" })
        { loader := "foo", options := none, ident := none } =
      Except.error { message := "nope" } ∧
    resolveLoaderItem (fun _ => Except.error { message := "nope" })
        { loader := "foo", options := none, ident := none } ≠
      Except.error { message := "nope" ++ loaderGuidance "foo" } := by
  have h1 : resolveLoaderItem (fun _ => Except.error { message := "nope" })
      { loader := "foo", options := none, ident := none } =
      Except.error { message := "nope" } := rfl
  refine ⟨h1, ?_⟩
  rw [h1]
  intro habs
  simp only [Except.error.injEq, JsError.mk.injEq] at habs
  exact absurd habs (by decide)

/-- Evaluation of the per-item body once the primary resolution failed. -/
theorem resolveLoaderItem_error (resolver : String → Except JsError String)
    (item : UseItem) (e : JsError) (h : resolver item.loader = .error e) :
    resolveLoaderItem resolver item =
      (if isBareLoaderName item.loader && !hasLoaderSuffix item.loader then
        match resolver (item.loader ++ "-loader") with
        | .ok _ => .error { message := e.message ++ loaderGuidance item.loader }
        | .error _ => .error e
      else .error e) := by
  unfold resolveLoaderItem
  rw [h]

/-- C7 (amended): when a loader reference fails to resolve and its name is
bare (no `/`) without a `-loader` suffix, resolution is retried with
`-loader` appended before the error is reported; if the retry succeeds the
original error is propagated with its message rewritten to carry the
migration guidance, and if the retry fails too the original error is
propagated unchanged; non-bare or already-suffixed names propagate the error
without a retry; in every case the (possibly rewritten) resolver error is
what `resolveRequestArray` hands to its caller. -/
theorem claimC7_loader_fallback (resolver : String → Except JsError String)
    (item : UseItem) (e : JsError) (h : resolver item.loader = .error e) :
    ((isBareLoaderName item.loader && !hasLoaderSuffix item.loader) = true →
      (∀ r, resolver (item.loader ++ "-loader") = .ok r →
        resolveLoaderItem resolver item =
          .error { message := e.message ++ loaderGuidance item.loader }) ∧
      (∀ e2, resolver (item.loader ++ "-loader") = .error e2 →
        resolveLoaderItem resolver item = .error e)) ∧
    ((isBareLoaderName item.loader && !hasLoaderSuffix item.loader) = false →
      resolveLoaderItem resolver item = .error e) ∧
    (∀ rest, ∃ e2, resolveLoaderItem resolver item = .error e2 ∧
      resolveRequestArray resolver (item :: rest) = .error e2) := by
  have hfailItem : ∃ e2, resolveLoaderItem resolver item = .error e2 := by
    rw [resolveLoaderItem_error resolver item e h]
    by_cases hb : (isBareLoaderName item.loader && !hasLoaderSuffix item.loader) = true
    · rw [if_pos hb]
      cases hr : resolver (item.loader ++ "-loader") with
      | ok r => exact ⟨_, rfl⟩
      | error e2 => exact ⟨e, rfl⟩
    · rw [if_neg hb]
      exact ⟨e, rfl⟩
  refine ⟨?_, ?_, ?_⟩
  · intro hb
    constructor
    · intro r hr
      rw [resolveLoaderItem_error resolver item e h, if_pos hb, hr]
    · intro e2 hr
      rw [resolveLoaderItem_error resolver item e h, if_pos hb, hr]
  · intro hb
    rw [resolveLoaderItem_error resolver item e h, if_neg (by simp [hb])]
  · intro rest
    obtain ⟨e2, he2⟩ := hfailItem
    refine ⟨e2, he2, ?_⟩
    unfold resolveRequestArray
    rw [if_neg (by simp), List.mapM_cons, he2]
    rfl

/-- Witness for C7 at a concrete resolver: `css` fails, `css-loader`
resolves, so the propagated error carries the rewritten guidance message. -/
theorem claimC7_loader_fallback_witness :
    resolveLoaderItem
        (fun s => if s = "css-loader" then Except.ok "/abs/css-loader/index.js"
                  else Except.error { message := "cannot resolve" })
        { loader := "css", options := none, ident := none } =
      Except.error { message := "cannot resolve" ++ loaderGuidance "css" } :=
  ((claimC7_loader_fallback _ { loader := "css", options := none, ident := none }
      { message := "cannot resolve" } rfl).1 (by decide)).1
    "/abs/css-loader/index.js" rfl

/-! ## NormalModuleFactory.getParser / getGenerator (C8) -/

/-- A parser/generator instance produced by the `createParser`/
`createGenerator` hooks; `creation` is its creation rank, so distinct
executions of the create hook yield distinguishable instances. -/
structure CreatedInstance where
  type : String
  optionsId : Nat
  creation : Nat
deriving DecidableEq, Repr

/-- `Map.set` on an association list (overwrite-or-append). -/
def setAssoc {α β : Type} [DecidableEq α] : List (α × β) → α → β → List (α × β)
  | [], t, x => [(t, x)]
  | (k, v) :: rest, t, x =>
      if k = t then (t, x) :: rest else (k, v) :: setAssoc rest t x

/-- `Map.get` on an association list. -/
def getAssoc {α β : Type} [DecidableEq α] (c : List (α × β)) (t : α) : Option β :=
  (c.find? (fun p => p.1 = t)).map (·.2)

/-- One of the factory's two caches: a `Map` from type to a `WeakMap` from
options-object identity (a `Nat` key standing for the object's identity) to
the created instance.  `createLog` records every execution of the create
hook (a write-count probe; it is not part of the source state). -/
structure TypeOptionsCache where
  cache : List (String × List (Nat × CreatedInstance))
  createLog : List (String × Nat)
deriving DecidableEq, Repr

/-- `getParser`/`getGenerator` body: look up the per-type `WeakMap`,
creating an empty one on a miss; then look up the options identity, running
the create hook and caching the result on a miss. -/
def cachedGetOrCreate (st : TypeOptionsCache) (type : String) (optionsId : Nat) :
    TypeOptionsCache × CreatedInstance :=
  let found := getAssoc st.cache type
  let cache := found.getD []
  let st1 := match found with
    | none => { st with cache := setAssoc st.cache type [] }
    | some _ => st
  match getAssoc cache optionsId with
  | some inst => (st1, inst)
  | none =>
      let inst := { type := type, optionsId := optionsId,
                    creation := st1.createLog.length }
      ({ cache := setAssoc st1.cache type (setAssoc cache optionsId inst),
         createLog := st1.createLog ++ [(type, optionsId)] }, inst)

/-- `NormalModuleFactory.getParser` over the factory's `parserCache`. -/
def getParser (st : TypeOptionsCache) (type : String) (parserOptions : Nat) :
    TypeOptionsCache × CreatedInstance :=
  cachedGetOrCreate st type parserOptions

/-- `NormalModuleFactory.getGenerator` over the factory's `generatorCache`
(the same lookup-create-cache body as `getParser`). -/
def getGenerator (st : TypeOptionsCache) (type : String) (generatorOptions : Nat) :
    TypeOptionsCache × CreatedInstance :=
  cachedGetOrCreate st type generatorOptions

theorem getAssoc_setAssoc {α β : Type} [DecidableEq α] (c : List (α × β)) (t : α) (x : β) :
    getAssoc (setAssoc c t x) t = some x := by
  induction c with
  | nil => simp [setAssoc, getAssoc]
  | cons kv rest ih =>
    obtain ⟨k, v⟩ := kv
    by_cases h : k = t
    · subst h
      simp [setAssoc, getAssoc]
    · simp only [setAssoc, if_neg h]
      simpa [getAssoc, List.find?_cons, h] using ih

theorem cachedGetOrCreate_idem (st : TypeOptionsCache) (t : String) (o : Nat) :
    cachedGetOrCreate (cachedGetOrCreate st t o).1 t o = cachedGetOrCreate st t o := by
  rcases hfound : getAssoc st.cache t with _ | w
  · have h0 : getAssoc ([] : List (Nat × CreatedInstance)) o = none := rfl
    simp [cachedGetOrCreate, hfound, h0, getAssoc_setAssoc]
  · rcases hopt : getAssoc w o with _ | p
    · simp [cachedGetOrCreate, hfound, hopt, getAssoc_setAssoc]
    · simp [cachedGetOrCreate, hfound, hopt]

theorem cachedGetOrCreate_log (st : TypeOptionsCache) (t : String) (o : Nat) :
    (cachedGetOrCreate st t o).1.createLog = st.createLog ∨
      (cachedGetOrCreate st t o).1.createLog = st.createLog ++ [(t, o)] := by
  rcases hfound : getAssoc st.cache t with _ | w
  · have h0 : getAssoc ([] : List (Nat × CreatedInstance)) o = none := rfl
    right
    simp [cachedGetOrCreate, hfound, h0]
  · rcases hopt : getAssoc w o with _ | p
    · right
      simp [cachedGetOrCreate, hfound, hopt]
    · left
      simp [cachedGetOrCreate, hfound, hopt]

theorem cachedGetOrCreate_hit (st : TypeOptionsCache) (t : String) (o : Nat)
    (w : List (Nat × CreatedInstance)) (p : CreatedInstance)
    (hfound : getAssoc st.cache t = some w) (hopt : getAssoc w o = some p) :
    cachedGetOrCreate st t o = (st, p) := by
  simp [cachedGetOrCreate, hfound, hopt]

/-- C8: `getParser` and `getGenerator` are idempotent per
(type, options-object identity): a second call with the same type and the
identical options object returns the same instance with the cache state
unchanged (so the create hook is not re-run), each call runs the create hook
at most once (lazily, only on a cache miss), and a call that hits the cache
returns the cached instance with the whole state untouched. -/
theorem claimC8_parser_generator_cache (st : TypeOptionsCache) (t : String) (o : Nat) :
    (getParser (getParser st t o).1 t o = getParser st t o) ∧
    ((getParser st t o).1.createLog = st.createLog ∨
      (getParser st t o).1.createLog = st.createLog ++ [(t, o)]) ∧
    (∀ w p, getAssoc st.cache t = some w → getAssoc w o = some p →
      getParser st t o = (st, p)) ∧
    (getGenerator (getGenerator st t o).1 t o = getGenerator st t o) ∧
    ((getGenerator st t o).1.createLog = st.createLog ∨
      (getGenerator st t o).1.createLog = st.createLog ++ [(t, o)]) ∧
    (∀ w p, getAssoc st.cache t = some w → getAssoc w o = some p →
      getGenerator st t o = (st, p)) :=
  ⟨cachedGetOrCreate_idem st t o, cachedGetOrCreate_log st t o,
    fun w p hf ho => cachedGetOrCreate_hit st t o w p hf ho,
    cachedGetOrCreate_idem st t o, cachedGetOrCreate_log st t o,
    fun w p hf ho => cachedGetOrCreate_hit st t o w p hf ho⟩

/-- Witness for C8: a factory whose `javascript/auto` cache already holds an
instance for options-identity 0 returns exactly that instance and leaves the
state untouched; a fresh second call after a miss-then-create also returns
the created instance. -/
theorem claimC8_parser_generator_cache_witness :
    getParser
        { cache := [("javascript/auto",
            [(0, { type := "javascript/auto", optionsId := 0, creation := 0 })])],
          createLog := [("javascript/auto", 0)] }
        "javascript/auto" 0 =
      ({ cache := [("javascript/auto",
            [(0, { type := "javascript/auto", optionsId := 0, creation := 0 })])],
          createLog := [("javascript/auto", 0)] },
        { type := "javascript/auto", optionsId := 0, creation := 0 }) ∧
    getParser (getParser { cache := [], createLog := [] } "javascript/auto" 0).1
        "javascript/auto" 0 =
      getParser { cache := [], createLog := [] } "javascript/auto" 0 :=
  ⟨(claimC8_parser_generator_cache _ "javascript/auto" 0).2.2.1 _ _ rfl rfl,
    (claimC8_parser_generator_cache { cache := [], createLog := [] }
      "javascript/auto" 0).1⟩

/-! ## Compiler.emitAssets: the per-asset write decision (C2) -/

/-- The inputs the `writeOut` closure of `emitAssets` consults for one asset:
output option, asset info, the two generation caches, the `stat` result and
the byte contents (`existing = none` models a `readFile` error). -/
structure EmitAssetInput where
  compareBeforeEmit : Bool
  immutable : Bool
  targetFileGeneration : Option Nat
  writtenGeneration : Option Nat
  fileExists : Bool
  statsSize : Nat
  content : List Nat
  existing : Option (List Nat)
deriving DecidableEq, Repr

/-- The externally observable outcome for one asset: whether
`outputFileSystem.writeFile` ran, whether `compilation.emittedAssets.add`
ran (the code's "information marker that the asset has been emitted"), and
whether `compilation.comparedForEmitAssets.add` ran. -/
structure EmitAssetOutcome where
  wrote : Bool
  emittedMarked : Bool
  comparedMarked : Bool
deriving DecidableEq, Repr

/-- `processExistingFile`: immutable assets short-circuit to
`alreadyWritten`; otherwise the sizes are compared first and only on equal
size are the bytes read and compared — equality skips the write (keeping
mtime), a read error or differing bytes fall through to `doWrite`. -/
def processExistingFile (inp : EmitAssetInput) : EmitAssetOutcome :=
  if inp.immutable then
    { wrote := false, emittedMarked := false, comparedMarked := false }
  else if inp.content.length = inp.statsSize then
    match inp.existing with
    | none => { wrote := true, emittedMarked := true, comparedMarked := true }
    | some ex =>
        if inp.content = ex then
          { wrote := false, emittedMarked := false, comparedMarked := true }
        else { wrote := true, emittedMarked := true, comparedMarked := true }
  else { wrote := true, emittedMarked := true, comparedMarked := false }

/-- `processMissingFile`: unconditional write. -/
def processMissingFile : EmitAssetOutcome :=
  { wrote := true, emittedMarked := true, comparedMarked := false }

/-- The `compareBeforeEmit` block of `writeOut`: `stat` the target and pick
the existing/missing branch. -/
def writeOutCompare (inp : EmitAssetInput) : EmitAssetOutcome :=
  if inp.compareBeforeEmit then
    (if inp.fileExists then processExistingFile inp else processMissingFile)
  else processMissingFile

/-- The `writeOut` decision: a target already written by this compiler with
the same source generation is skipped outright; a previously written,
non-immutable target is rewritten without comparing; everything else goes
through the compare-before-emit logic. -/
def writeOut (inp : EmitAssetInput) : EmitAssetOutcome :=
  match inp.targetFileGeneration with
  | some g =>
      if inp.writtenGeneration = some g then
        { wrote := false, emittedMarked := false, comparedMarked := false }
      else if !inp.immutable then processMissingFile
      else writeOutCompare inp
  | none => writeOutCompare inp

/-- Counterexample to C2 as stated: a target path this compiler wrote in an
earlier generation (`targetFileGeneration = some 1`, current source not yet
recorded for it) is rewritten without any comparison even though the file
exists with byte-identical content — and on the path where the comparison
does run and matches, the asset is not marked in `emittedAssets`. -/
theorem claimC2_counterexample :
    (writeOut
        { compareBeforeEmit := true
          immutable := false
          targetFileGeneration := some 1
          writtenGeneration := none
          fileExists := true
          statsSize := 1
          content := [7]
          existing := some [7] }).wrote = true ∧
    (writeOut
        { compareBeforeEmit := true
          immutable := false
          targetFileGeneration := none
          writtenGeneration := none
          fileExists := true
          statsSize := 1
          content := [7]
          existing := some [7] }) =
      { wrote := false, emittedMarked := false, comparedMarked := true } := by
  constructor <;> rfl

/-- C2 (amended): on the first emit of a target path
(`targetFileGeneration` unset) with `compareBeforeEmit` on, an existing,
non-immutable target is compared by size first (a size mismatch writes
without reading bytes), bytes are compared only on equal size, a byte-exact
match skips the write — completing the asset's emit without error but
marking it in `comparedForEmitAssets`, not `emittedAssets` — and differing
bytes (or a failed read) write the content. -/
theorem claimC2_idempotent_emit (inp : EmitAssetInput)
    (hcmp : inp.compareBeforeEmit = true) (hex : inp.fileExists = true)
    (him : inp.immutable = false) (hgen : inp.targetFileGeneration = none) :
    (inp.content.length ≠ inp.statsSize →
      writeOut inp = { wrote := true, emittedMarked := true, comparedMarked := false }) ∧
    (inp.content.length = inp.statsSize →
      (inp.existing = some inp.content →
        writeOut inp = { wrote := false, emittedMarked := false, comparedMarked := true }) ∧
      (∀ ex, inp.existing = some ex → inp.content ≠ ex →
        writeOut inp = { wrote := true, emittedMarked := true, comparedMarked := true }) ∧
      (inp.existing = none →
        writeOut inp = { wrote := true, emittedMarked := true, comparedMarked := true })) := by
  have hw : writeOut inp = processExistingFile inp := by
    unfold writeOut writeOutCompare
    rw [hgen]
    simp [hcmp, hex]
  constructor
  · intro hsz
    rw [hw]
    unfold processExistingFile
    simp [him, hsz]
  · intro hsz
    refine ⟨?_, ?_, ?_⟩
    · intro hsame
      rw [hw]
      unfold processExistingFile
      simp [him, hsz, hsame]
    · intro ex hex2 hdiff
      rw [hw]
      unfold processExistingFile
      simp [him, hsz, hex2, hdiff]
    · intro hnone
      rw [hw]
      unfold processExistingFile
      simp [him, hsz, hnone]

/-- Witness for C2 at concrete inputs: equal size and equal bytes skip the
write; a size mismatch writes without comparing bytes. -/
theorem claimC2_idempotent_emit_witness :
    writeOut
        { compareBeforeEmit := true
          immutable := false
          targetFileGeneration := none
          writtenGeneration := none
          fileExists := true
          statsSize := 2
          content := [7, 8]
          existing := some [7, 8] } =
      { wrote := false, emittedMarked := false, comparedMarked := true } ∧
    writeOut
        { compareBeforeEmit := true
          immutable := false
          targetFileGeneration := none
          writtenGeneration := none
          fileExists := true
          statsSize := 3
          content := [7, 8]
          existing := some [7, 8] } =
      { wrote := true, emittedMarked := true, comparedMarked := false } :=
  ⟨((claimC2_idempotent_emit _ rfl rfl rfl rfl).2 (by decide)).1 rfl,
    (claimC2_idempotent_emit _ rfl rfl rfl rfl).1 (by decide)⟩

/-! ## Compiler.run and Compiler.watch (C3, C4) -/

/-- An error reaching `Compiler.run`/`watch` callbacks: the concurrency
guard's `ConcurrentCompilationError` or an infrastructure error from one of
the async steps. -/
inductive CompilerError where
  | concurrentCompilation
  | infra (tag : String)
deriving DecidableEq, Repr

/-- A compilation's diagnostic lists (the part of `Compilation` that C3
talks about). -/
structure CompilationV where
  errors : List String
  warnings : List String
deriving DecidableEq, Repr

/-- Modelled from the spec: `new Stats(compilation)` carries the
compilation's aggregated error and warning lists (`lib/Stats.js` itself is
not among the excerpted sources; the spec states the `done` hook "carr[ies]
aggregated Stats with error/warning lists"). -/
structure StatsV where
  errors : List String
  warnings : List String
deriving DecidableEq, Repr

/-- `new Stats(compilation)`. -/
def mkStats (c : CompilationV) : StatsV :=
  { errors := c.errors, warnings := c.warnings }

/-- The externally observable events of one `Compiler.run` invocation, in
order: hook firings and the user callback. -/
inductive RunEvent where
  | failedHook (e : CompilerError)
  | doneHook (s : StatsV)
  | callback (e : Option CompilerError) (s : Option StatsV)
  | afterDoneHook
  | additionalPassHook
deriving DecidableEq, Repr

/-- The outcome of each async step of one `run`, fixed up front so that the
callback-chained control flow becomes a pure function.  `compileResult`
carries the compilation (with its module-level error list) on success. -/
structure RunEnv where
  endIdleErr : Option CompilerError
  beforeRunErr : Option CompilerError
  runHookErr : Option CompilerError
  readRecordsErr : Option CompilerError
  compileResult : Except CompilerError CompilationV
  shouldEmitFalse : Bool
  emitAssetsErr : Option CompilerError
  needAdditionalPass : Bool
  additionalPassErr : Option CompilerError
  emitRecordsErr : Option CompilerError
  doneHookErr : Option CompilerError
deriving Repr

/-- `finalCallback`: fire `failed` on an error, then the user callback, then
`afterDone`. -/
def finalCallbackTrace (err : Option CompilerError) (stats : Option StatsV) :
    List RunEvent :=
  (match err with
   | some e => [RunEvent.failedHook e]
   | none => []) ++
    [RunEvent.callback err stats, RunEvent.afterDoneHook]

/-- The `onCompiled` continuation of `Compiler.run`.  On
`needAdditionalPass` the `additionalPass` hook fires after the `done` hook;
an error from it goes into `finalCallback`, and only on its success does the
model stop, where the source re-enters `compile` for a fresh pass. -/
def onCompiledTrace (env : RunEnv) : List RunEvent :=
  match env.compileResult with
  | .error e => finalCallbackTrace (some e) none
  | .ok compilation =>
      if env.shouldEmitFalse then
        RunEvent.doneHook (mkStats compilation) ::
          (match env.doneHookErr with
           | some e => finalCallbackTrace (some e) none
           | none => finalCallbackTrace none (some (mkStats compilation)))
      else
        match env.emitAssetsErr with
        | some e => finalCallbackTrace (some e) none
        | none =>
            if env.needAdditionalPass then
              RunEvent.doneHook (mkStats compilation) ::
                (match env.doneHookErr with
                 | some e => finalCallbackTrace (some e) none
                 | none =>
                     RunEvent.additionalPassHook ::
                       (match env.additionalPassErr with
                        | some e => finalCallbackTrace (some e) none
                        | none => []))
            else
              match env.emitRecordsErr with
              | some e => finalCallbackTrace (some e) none
              | none =>
                  RunEvent.doneHook (mkStats compilation) ::
                    (match env.doneHookErr with
                     | some e => finalCallbackTrace (some e) none
                     | none => finalCallbackTrace none (some (mkStats compilation)))

/-- The `running` flag after `onCompiled` settles: every `finalCallback`
path resets it to false; only the truncated `additionalPass` hand-off leaves
the run in flight. -/
def onCompiledRunning (env : RunEnv) : Bool :=
  match env.compileResult with
  | .error _ => false
  | .ok _ =>
      if env.shouldEmitFalse then false
      else
        match env.emitAssetsErr with
        | some _ => false
        | none =>
            if env.needAdditionalPass then
              (match env.doneHookErr with
               | some _ => false
               | none =>
                   match env.additionalPassErr with
                   | some _ => false
                   | none => true)
            else false

/-- `Compiler.run`: the guard, then the `endIdle → beforeRun → run →
readRecords → compile` chain, each error short-circuiting into
`finalCallback`.  Returns the event trace and the final `running` flag. -/
def compilerRun (running : Bool) (env : RunEnv) : List RunEvent × Bool :=
  if running then
    ([RunEvent.callback (some .concurrentCompilation) none], running)
  else
    match env.endIdleErr with
    | some e => (finalCallbackTrace (some e) none, false)
    | none =>
        match env.beforeRunErr with
        | some e => (finalCallbackTrace (some e) none, false)
        | none =>
            match env.runHookErr with
            | some e => (finalCallbackTrace (some e) none, false)
            | none =>
                match env.readRecordsErr with
                | some e => (finalCallbackTrace (some e) none, false)
                | none => (onCompiledTrace env, onCompiledRunning env)

/-- `Compiler.watch`: the same guard; on the non-guarded path it sets
`running` and `watchMode` and constructs a `Watching`.  Returns the events,
the new `(running, watchMode)` pair and whether a `Watching` was created. -/
def compilerWatch (running watchMode : Bool) :
    List RunEvent × Bool × Bool × Bool :=
  if running then
    ([RunEvent.callback (some .concurrentCompilation) none], running, watchMode, false)
  else ([], true, true, true)

/-- A user-callback event with a non-null error inside a `finalCallback`
trace pins down the error `finalCallback` was invoked with. -/
theorem callback_mem_finalCallbackTrace {e : CompilerError} {s : Option StatsV}
    {err : Option CompilerError} {st : Option StatsV}
    (h : RunEvent.callback (some e) s ∈ finalCallbackTrace err st) : err = some e := by
  cases err with
  | none =>
    simp [finalCallbackTrace] at h
  | some e1 =>
    simp [finalCallbackTrace] at h
    obtain ⟨he, _⟩ := h
    rw [he]

/-- C4: a `run` or `watch` issued while `running` is set does not start a
new compilation and does not queue: the callback/handler is invoked
immediately with a `ConcurrentCompilationError`, no hook fires, and the
compiler state (`running`, `watchMode`) is unchanged — for `watch`, no
`Watching` is constructed. -/
theorem claimC4_reentrancy_guard (env : RunEnv) (watchMode : Bool) :
    compilerRun true env =
      ([RunEvent.callback (some .concurrentCompilation) none], true) ∧
    compilerWatch true watchMode =
      ([RunEvent.callback (some .concurrentCompilation) none], true, watchMode, false) :=
  ⟨rfl, rfl⟩

/-- Counterexample to C3 as stated: when `compile` itself fails
(an infrastructure-level failure), `Compiler.run` completes through
`finalCallback` with the `failed` hook — the `done` hook never fires, so
"the `done` hook is invoked … before the user callback runs" is false for
this completion. -/
theorem claimC3_counterexample :
    (compilerRun false
        { endIdleErr := none
          beforeRunErr := none
          runHookErr := none
          readRecordsErr := none
          compileResult := .error (.infra "resolver crashed")
          shouldEmitFalse := false
          emitAssetsErr := none
          needAdditionalPass := false
          additionalPassErr := none
          emitRecordsErr := none
          doneHookErr := none }).1 =
      [RunEvent.failedHook (.infra "resolver crashed"),
       RunEvent.callback (some (.infra "resolver crashed")) none,
       RunEvent.afterDoneHook] ∧
    (∀ s, RunEvent.doneHook s ∉ (compilerRun false
        { endIdleErr := none
          beforeRunErr := none
          runHookErr := none
          readRecordsErr := none
          compileResult := .error (.infra "resolver crashed")
          shouldEmitFalse := false
          emitAssetsErr := none
          needAdditionalPass := false
          additionalPassErr := none
          emitRecordsErr := none
          doneHookErr := none }).1) := by
  constructor
  · rfl
  · intro s
    intro hmem
    have h : (compilerRun false
        { endIdleErr := none
          beforeRunErr := none
          runHookErr := none
          readRecordsErr := none
          compileResult := .error (.infra "resolver crashed")
          shouldEmitFalse := false
          emitAssetsErr := none
          needAdditionalPass := false
          additionalPassErr := none
          emitRecordsErr := none
          doneHookErr := none }).1 =
      [RunEvent.failedHook (.infra "resolver crashed"),
       RunEvent.callback (some (.infra "resolver crashed")) none,
       RunEvent.afterDoneHook] := rfl
    rw [h] at hmem
    simp at hmem

/-- A callback event in a trace headed by a `done` event lies in the tail. -/
theorem callback_not_done {e : CompilerError} {s : Option StatsV} {st : StatsV}
    {rest : List RunEvent}
    (h : RunEvent.callback (some e) s ∈ (RunEvent.doneHook st :: rest)) :
    RunEvent.callback (some e) s ∈ rest := by
  rcases List.mem_cons.mp h with h | h
  · exact absurd h (by simp)
  · exact h

/-- A callback event in a trace headed by the `additionalPass` event lies in
the tail. -/
theorem callback_not_addpass {e : CompilerError} {s : Option StatsV}
    {rest : List RunEvent}
    (h : RunEvent.callback (some e) s ∈ (RunEvent.additionalPassHook :: rest)) :
    RunEvent.callback (some e) s ∈ rest := by
  rcases List.mem_cons.mp h with h | h
  · exact absurd h (by simp)
  · exact h

/-- C3 (amended): whenever the compilation itself completes — even with
module-level errors recorded in it — the `done` hook fires with a `Stats`
aggregating the compilation's error and warning lists, strictly before the
user callback, and the callback receives a null error with the stats;
infrastructure-level failures (cache idle-transition, `beforeRun`/`run`
hooks, records IO, `compile`, `emitAssets`, the `additionalPass` hook,
`emitRecords`, or a failing `done` hook itself) instead fire the `failed`
hook and are the only way the callback's error argument can be non-null —
module-level errors never are. (`needAdditionalPass` builds fire `done` and
the `additionalPass` hook, then restart `compile` for a later pass.) -/
theorem claimC3_done_hook_protocol (env : RunEnv) :
    (env.endIdleErr = none → env.beforeRunErr = none → env.runHookErr = none →
      env.readRecordsErr = none → env.doneHookErr = none →
      env.needAdditionalPass = false →
      ∀ c, env.compileResult = .ok c →
        ((env.shouldEmitFalse = true →
          (compilerRun false env).1 =
            [RunEvent.doneHook (mkStats c),
             RunEvent.callback none (some (mkStats c)),
             RunEvent.afterDoneHook]) ∧
         (env.shouldEmitFalse = false → env.emitAssetsErr = none →
          env.emitRecordsErr = none →
          (compilerRun false env).1 =
            [RunEvent.doneHook (mkStats c),
             RunEvent.callback none (some (mkStats c)),
             RunEvent.afterDoneHook]) ∧
         (mkStats c).errors = c.errors ∧ (mkStats c).warnings = c.warnings)) ∧
    (∀ e s, RunEvent.callback (some e) s ∈ (compilerRun false env).1 →
      env.endIdleErr = some e ∨ env.beforeRunErr = some e ∨
      env.runHookErr = some e ∨ env.readRecordsErr = some e ∨
      env.compileResult = .error e ∨ env.emitAssetsErr = some e ∨
      env.emitRecordsErr = some e ∨ env.doneHookErr = some e ∨
      env.additionalPassErr = some e) := by
  constructor
  · intro h1 h2 h3 h4 h5 h6 c h7
    refine ⟨?_, ?_, rfl, rfl⟩
    · intro hse
      simp [compilerRun, h1, h2, h3, h4, onCompiledTrace, h7, h5, h6, hse,
        finalCallbackTrace]
    · intro hse hea her
      simp [compilerRun, h1, h2, h3, h4, onCompiledTrace, h7, h5, h6, hse,
        hea, her, finalCallbackTrace]
  · intro e s hmem
    rcases h1 : env.endIdleErr with _ | e1
    case some =>
      have ht : (compilerRun false env).1 = finalCallbackTrace (some e1) none := by
        simp [compilerRun, h1]
      exact Or.inl (callback_mem_finalCallbackTrace (ht ▸ hmem))
    rcases h2 : env.beforeRunErr with _ | e2
    case some =>
      have ht : (compilerRun false env).1 = finalCallbackTrace (some e2) none := by
        simp [compilerRun, h1, h2]
      exact Or.inr (Or.inl (callback_mem_finalCallbackTrace (ht ▸ hmem)))
    rcases h3 : env.runHookErr with _ | e3
    case some =>
      have ht : (compilerRun false env).1 = finalCallbackTrace (some e3) none := by
        simp [compilerRun, h1, h2, h3]
      exact Or.inr (Or.inr (Or.inl (callback_mem_finalCallbackTrace (ht ▸ hmem))))
    rcases h4 : env.readRecordsErr with _ | e4
    case some =>
      have ht : (compilerRun false env).1 = finalCallbackTrace (some e4) none := by
        simp [compilerRun, h1, h2, h3, h4]
      exact Or.inr (Or.inr (Or.inr (Or.inl
        (callback_mem_finalCallbackTrace (ht ▸ hmem)))))
    have htop : (compilerRun false env).1 = onCompiledTrace env := by
      simp [compilerRun, h1, h2, h3, h4]
    rw [htop] at hmem
    rcases h7 : env.compileResult with e5 | c
    case error =>
      have ht : onCompiledTrace env = finalCallbackTrace (some e5) none := by
        simp [onCompiledTrace, h7]
      have he : e5 = e :=
        Option.some.inj (callback_mem_finalCallbackTrace (ht ▸ hmem))
      exact Or.inr (Or.inr (Or.inr (Or.inr (Or.inl (by rw [he])))))
    rcases hse : env.shouldEmitFalse with _ | _
    case true =>
      rcases hde : env.doneHookErr with _ | e6
      · have ht : onCompiledTrace env =
            RunEvent.doneHook (mkStats c) ::
              finalCallbackTrace none (some (mkStats c)) := by
          simp [onCompiledTrace, h7, hse, hde]
        rw [ht] at hmem
        exact absurd (callback_mem_finalCallbackTrace (callback_not_done hmem)) (by simp)
      · have ht : onCompiledTrace env =
            RunEvent.doneHook (mkStats c) :: finalCallbackTrace (some e6) none := by
          simp [onCompiledTrace, h7, hse, hde]
        rw [ht] at hmem
        exact Or.inr (Or.inr (Or.inr (Or.inr (Or.inr (Or.inr (Or.inr (Or.inl
          (callback_mem_finalCallbackTrace (callback_not_done hmem)))))))))
    rcases hea : env.emitAssetsErr with _ | e7
    case some =>
      have ht : onCompiledTrace env = finalCallbackTrace (some e7) none := by
        simp [onCompiledTrace, h7, hse, hea]
      exact Or.inr (Or.inr (Or.inr (Or.inr (Or.inr (Or.inl
        (callback_mem_finalCallbackTrace (ht ▸ hmem)))))))
    rcases hnap : env.needAdditionalPass with _ | _
    case true =>
      rcases hde : env.doneHookErr with _ | e6
      · rcases hap : env.additionalPassErr with _ | e9
        · have ht : onCompiledTrace env =
              RunEvent.doneHook (mkStats c) :: [RunEvent.additionalPassHook] := by
            simp [onCompiledTrace, h7, hse, hea, hnap, hde, hap]
          rw [ht] at hmem
          have := callback_not_done hmem
          simp at this
        · have ht : onCompiledTrace env =
              RunEvent.doneHook (mkStats c) :: RunEvent.additionalPassHook ::
                finalCallbackTrace (some e9) none := by
            simp [onCompiledTrace, h7, hse, hea, hnap, hde, hap]
          rw [ht] at hmem
          exact Or.inr (Or.inr (Or.inr (Or.inr (Or.inr (Or.inr (Or.inr (Or.inr
            (callback_mem_finalCallbackTrace
              (callback_not_addpass (callback_not_done hmem))))))))))
      · have ht : onCompiledTrace env =
            RunEvent.doneHook (mkStats c) :: finalCallbackTrace (some e6) none := by
          simp [onCompiledTrace, h7, hse, hea, hnap, hde]
        rw [ht] at hmem
        exact Or.inr (Or.inr (Or.inr (Or.inr (Or.inr (Or.inr (Or.inr (Or.inl
          (callback_mem_finalCallbackTrace (callback_not_done hmem)))))))))
    rcases her : env.emitRecordsErr with _ | e8
    case some =>
      have ht : onCompiledTrace env = finalCallbackTrace (some e8) none := by
        simp [onCompiledTrace, h7, hse, hea, hnap, her]
      exact Or.inr (Or.inr (Or.inr (Or.inr (Or.inr (Or.inr (Or.inl
        (callback_mem_finalCallbackTrace (ht ▸ hmem))))))))
    rcases hde : env.doneHookErr with _ | e6
    · have ht : onCompiledTrace env =
          RunEvent.doneHook (mkStats c) ::
            finalCallbackTrace none (some (mkStats c)) := by
        simp [onCompiledTrace, h7, hse, hea, hnap, her, hde]
      rw [ht] at hmem
      exact absurd (callback_mem_finalCallbackTrace (callback_not_done hmem)) (by simp)
    · have ht : onCompiledTrace env =
          RunEvent.doneHook (mkStats c) :: finalCallbackTrace (some e6) none := by
        simp [onCompiledTrace, h7, hse, hea, hnap, her, hde]
      rw [ht] at hmem
      exact Or.inr (Or.inr (Or.inr (Or.inr (Or.inr (Or.inr (Or.inr (Or.inl
        (callback_mem_finalCallbackTrace (callback_not_done hmem)))))))))

/-- Witness for C3 at a concrete environment: a run whose compilation
carries one module-level error still fires `done` with those errors inside
the stats, before a null-error callback. -/
theorem claimC3_done_hook_protocol_witness :
    (compilerRun false
        { endIdleErr := none
          beforeRunErr := none
          runHookErr := none
          readRecordsErr := none
          compileResult := .ok { errors := ["ModuleNotFoundError"], warnings := [] }
          shouldEmitFalse := false
          emitAssetsErr := none
          needAdditionalPass := false
          additionalPassErr := none
          emitRecordsErr := none
          doneHookErr := none }).1 =
      [RunEvent.doneHook { errors := ["ModuleNotFoundError"], warnings := [] },
       RunEvent.callback none
         (some { errors := ["ModuleNotFoundError"], warnings := [] }),
       RunEvent.afterDoneHook] :=
  ((claimC3_done_hook_protocol _).1 rfl rfl rfl rfl rfl rfl
      { errors := ["ModuleNotFoundError"], warnings := [] } rfl).2.1 rfl rfl rfl

/-- Witness for C4 at concrete state: both guarded calls return only the
concurrency error. -/
theorem claimC4_reentrancy_guard_witness :
    compilerRun true
        { endIdleErr := none
          beforeRunErr := none
          runHookErr := none
          readRecordsErr := none
          compileResult := .ok { errors := [], warnings := [] }
          shouldEmitFalse := false
          emitAssetsErr := none
          needAdditionalPass := false
          additionalPassErr := none
          emitRecordsErr := none
          doneHookErr := none } =
      ([RunEvent.callback (some .concurrentCompilation) none], true) ∧
    compilerWatch true false =
      ([RunEvent.callback (some .concurrentCompilation) none], true, false, false) :=
  ⟨(claimC4_reentrancy_guard _ false).1, (claimC4_reentrancy_guard
      { endIdleErr := none
        beforeRunErr := none
        runHookErr := none
        readRecordsErr := none
        compileResult := .ok { errors := [], warnings := [] }
        shouldEmitFalse := false
        emitAssetsErr := none
        needAdditionalPass := false
        additionalPassErr := none
        emitRecordsErr := none
        doneHookErr := none } false).2⟩

/-! ## JavascriptModulesPlugin.renderBootstrap / renderMain (C5) -/

/-- The runtime-requirement capabilities (`RuntimeGlobals`) consulted by
`renderBootstrap` and `renderMain`. -/
inductive RG where
  | require
  | moduleCache
  | moduleFactories
  | moduleFactoriesAddOnly
  | module
  | exports
  | requireScope
  | interceptModuleExecution
  | returnExportsFromRuntime
  | startupNoDefault
  | startup
  | entryModuleId
  | thisAsExports
deriving DecidableEq, Repr

/-- Modelled from the spec: the `RuntimeGlobals` name table
(`lib/RuntimeGlobals.js` is not among the excerpted sources; the spec only
needs the capabilities to be distinct named bootstrap features). -/
def rgName : RG → String
  | .require => "__webpack_require__"
  | .moduleCache => "__webpack_require__.c"
  | .moduleFactories => "__webpack_require__.m"
  | .moduleFactoriesAddOnly => "__webpack_require__.m (add only)"
  | .module => "module"
  | .exports => "exports"
  | .requireScope => "__webpack_require__.*"
  | .interceptModuleExecution => "__webpack_require__.i"
  | .returnExportsFromRuntime => "return-exports-from-runtime"
  | .startupNoDefault => "__webpack_require__.x (no default)"
  | .startup => "__webpack_require__.x"
  | .entryModuleId => "__webpack_require__.s"
  | .thisAsExports => "top-level-this-exports"

/-- One incoming connection of a module in the module graph, as
`someInIterable(moduleGraph.getIncomingConnections(m), c => c.originModule && c.active)`
consults it. -/
structure Connection where
  originModule : Bool
  active : Bool
deriving DecidableEq, Repr

/-- A chunk module as the two render functions consult it. -/
structure JsModule where
  id : ModuleId
  strict : Bool
  incomingConnections : List Connection
  runtimeRequirements : List RG
deriving DecidableEq, Repr

/-- `renderBootstrap`'s result object. -/
structure BootstrapResult where
  header : List String
  startup : List String
  allowInlineStartup : Bool
deriving DecidableEq, Repr

/-- `Template.asString`. -/
def asString (xs : List String) : String := String.intercalate "\n" xs

/-- The entry-module loop of `renderBootstrap` (the body of
`for (const entryModule of chunkGraph.getChunkEntryModulesIterable(chunk))`),
carrying the countdown `i`, the `allowInlineStartup` flag and the `buf2`
accumulator. -/
def renderEntryStartup (rr : List RG)
    (useRequire requireScopeUsed returnExportsFromRuntime : Bool) :
    List JsModule → Nat → Bool → List String → List String × Bool
  | [], _, allow, acc => (acc, allow)
  | e :: restMods, i, allow, acc =>
      let step1 :=
        if allow && e.incomingConnections.any (fun c => c.originModule && c.active) then
          (acc ++ ["// This entry module is referenced by other modules so it can't be inlined"],
            false)
        else (acc, allow)
      let i' := i - 1
      let mayReturn := if i' = 0 && returnExportsFromRuntime then "return " else ""
      let moduleIdExpr0 := e.id.jsonStringify
      let moduleIdExpr :=
        if rr.contains RG.entryModuleId then
          rgName RG.entryModuleId ++ " = " ++ moduleIdExpr0
        else moduleIdExpr0
      let step2 :=
        if useRequire then
          let acc2 := step1.1 ++ [mayReturn ++ "__webpack_require__(" ++ moduleIdExpr ++ ");"]
          if step1.2 then
            if e.runtimeRequirements.contains RG.module then
              (acc2 ++ ["// This entry module used 'module' so it can't be inlined"], false)
            else if e.runtimeRequirements.contains RG.exports then
              (acc2 ++ ["// This entry module used 'exports' so it can't be inlined"], false)
            else (acc2, step1.2)
          else (acc2, step1.2)
        else if requireScopeUsed then
          (step1.1 ++ ["__webpack_modules__[" ++ moduleIdExpr ++ "](0, 0, __webpack_require__);"],
            step1.2)
        else (step1.1 ++ ["__webpack_modules__[" ++ moduleIdExpr ++ "]();"], step1.2)
      renderEntryStartup rr useRequire requireScopeUsed returnExportsFromRuntime
        restMods i' step2.2 step2.1

/-- `JavascriptModulesPlugin.renderBootstrap`, parametric in
`runtimeTemplate.basicFunction` and in the rendered `renderRequire` body
(whose text the claims do not consult). -/
def renderBootstrap (rr : List RG) (entryModules : List JsModule)
    (basicFunction : String → List String → String) (requireBody : String) :
    BootstrapResult :=
  let moduleCache := rr.contains RG.moduleCache
  let moduleFactories := rr.contains RG.moduleFactories
  let requireScopeUsed := rr.contains RG.requireScope
  let interceptModuleExecution := rr.contains RG.interceptModuleExecution
  let returnExportsFromRuntime := rr.contains RG.returnExportsFromRuntime
  let useRequire := rr.contains RG.require || interceptModuleExecution ||
    returnExportsFromRuntime || rr.contains RG.module || rr.contains RG.exports
  let s1a1 :=
    if moduleFactories then
      (["// module factories are used so entry inlining is disabled"], false)
    else (([] : List String), true)
  let s2a2 :=
    if s1a1.2 && moduleCache then
      (s1a1.1 ++ ["// module cache are used so entry inlining is disabled"], false)
    else s1a1
  let s3a3 :=
    if s2a2.2 && interceptModuleExecution then
      (s2a2.1 ++ ["// module execution is intercepted so entry inlining is disabled"], false)
    else s2a2
  let s4a4 :=
    if s3a3.2 && returnExportsFromRuntime then
      (s3a3.1 ++ ["// module exports must be returned from runtime so entry inlining is disabled"],
        false)
    else s3a3
  let b1 := if useRequire || moduleCache then
      ["// The module cache", "var __webpack_module_cache__ = {};", ""]
    else []
  let b2 :=
    if useRequire then
      b1 ++ ["// The require function", "function __webpack_require__(moduleId) \x7b",
        requireBody, "\x7d", ""]
    else if requireScopeUsed then
      b1 ++ ["// The require scope", "var __webpack_require__ = {};", ""]
    else b1
  let b3 :=
    if moduleFactories || rr.contains RG.moduleFactoriesAddOnly then
      b2 ++ ["// expose the modules object (__webpack_modules__)",
        rgName RG.moduleFactories ++ " = __webpack_modules__;", ""]
    else b2
  let b4 :=
    if moduleCache then
      b3 ++ ["// expose the module cache",
        rgName RG.moduleCache ++ " = __webpack_module_cache__;", ""]
    else b3
  let b5 :=
    if interceptModuleExecution then
      b4 ++ ["// expose the module execution interceptor",
        rgName RG.interceptModuleExecution ++ " = [];", ""]
    else b4
  if !(rr.contains RG.startupNoDefault) then
    if entryModules.length > 0 then
      let buf2init :=
        [if returnExportsFromRuntime then "// Load entry module and return exports"
         else "// Load entry module"]
      let loopRes := renderEntryStartup rr useRequire requireScopeUsed
        returnExportsFromRuntime entryModules entryModules.length s4a4.2 buf2init
      if rr.contains RG.startup then
        { header := b5 ++
            [asString ["// the startup function",
              rgName RG.startup ++ " = " ++ basicFunction "" loopRes.1 ++ ";"], ""],
          startup := s4a4.1 ++ ["// run startup", "return " ++ rgName RG.startup ++ "();"],
          allowInlineStartup := false }
      else
        { header := b5,
          startup := s4a4.1 ++ [asString ["// startup", asString loopRes.1]],
          allowInlineStartup := loopRes.2 }
    else
      if rr.contains RG.startup then
        { header := b5 ++
            [asString ["// the startup function",
              "// It's empty as no entry modules are in this chunk",
              rgName RG.startup ++ " = " ++ basicFunction "" []], ""],
          startup := s4a4.1, allowInlineStartup := s4a4.2 }
      else { header := b5, startup := s4a4.1, allowInlineStartup := s4a4.2 }
  else
    if rr.contains RG.startup then
      { header := b5,
        startup := s4a4.1 ++ ["// run startup", "return " ++ rgName RG.startup ++ "();"],
        allowInlineStartup := false }
    else { header := b5, startup := s4a4.1, allowInlineStartup := s4a4.2 }

/-- `PrefixSource`: prepend the prefix to every line. -/
def prefixLines (p s : String) : String :=
  p ++ String.intercalate ("\n" ++ p) (s.splitOn "\n")

/-- The `factory-or-inline` flag `renderModule` receives: `true`, `"strict"`
or `false` in the JavaScript. -/
inductive RenderMode where
  | factory
  | factoryStrict
  | inlined
deriving DecidableEq, Repr

/-- The chunk-level inputs of `renderMain`. -/
structure RenderMainCtx where
  treeRuntimeRequirements : List RG
  entryModules : List JsModule
  allModules : List JsModule
  runtimeModules : List String
  iife : Bool
  supportsConst : Bool

/-- The inlined-entries tail of `renderMain` (the `for (const m of
inlinedModules)` loop): each rendered entry, IIFE-wrapped when it is
strict-in-a-non-strict-chunk, shares the chunk with other inlined entries,
or other chunk modules exist. -/
def inlinedEntriesSegs (im : List JsModule) (allStrict : Bool)
    (hasChunkModules : Bool) (renderModule : JsModule → RenderMode → Option String) :
    List String :=
  im.foldl (fun acc m =>
    match renderModule m RenderMode.inlined with
    | some rendered =>
        let innerStrict := !allStrict && m.strict
        let wrap := innerStrict || im.length > 1 || hasChunkModules
        acc ++ (if wrap then
            ["!function() \x7b\n"] ++ (if innerStrict then ["\"use strict\";\n"] else []) ++
              [rendered, "\n\x7d();\n"]
          else [rendered, "\n"])
    | none => acc) []

/-- The generic startup indirection emitted when no inlining happens: the
prefixed `bootstrap.startup` block. -/
def genericStartupSeg (pfx : String) (bootstrap : BootstrapResult) : String :=
  prefixLines pfx (asString bootstrap.startup ++ "\n")

/-- `JavascriptModulesPlugin.renderMain` as the ordered list of chunks added
to the output `ConcatSource` (the `renderMain`/`render` hooks are modelled
as the identity, as in a build with no further plugins). -/
def renderMain (ctx : RenderMainCtx)
    (renderModule : JsModule → RenderMode → Option String)
    (basicFunction : String → List String → String) (requireBody : String) :
    List String :=
  let rr := ctx.treeRuntimeRequirements
  let bootstrap := renderBootstrap rr ctx.entryModules basicFunction requireBody
  let allStrict := ctx.allModules.all (·.strict)
  let inlinedModules : Option (List JsModule) :=
    if bootstrap.allowInlineStartup then some ctx.entryModules else none
  let pfx := if ctx.iife then "/******/ \t" else "/******/ "
  let openSegs :=
    if ctx.iife then
      [if ctx.supportsConst then "/******/ (() => \x7b // webpackBootstrap\n"
       else "/******/ (function() \x7b // webpackBootstrap\n"]
    else []
  let strictSegs := if allStrict then [pfx ++ "\"use strict\";\n"] else []
  let renderList :=
    match inlinedModules with
    | some im => ctx.allModules.filter (fun m => !im.contains m)
    | none => ctx.allModules
  let chunkModules := Template.renderChunkModules renderList (·.id)
    (fun m => renderModule m (if allStrict then RenderMode.factoryStrict else RenderMode.factory))
    [] pfx
  let modulesSegs :=
    if chunkModules.isSome || rr.contains RG.moduleFactories ||
        rr.contains RG.moduleFactoriesAddOnly then
      [pfx ++ "var __webpack_modules__ = (", chunkModules.getD "{}", ");\n",
        "/************************************************************************/\n"]
    else []
  let headerSegs :=
    if bootstrap.header.length > 0 then
      [prefixLines pfx (asString bootstrap.header ++ "\n"),
        "/************************************************************************/\n"]
    else []
  let runtimeSegs :=
    if ctx.runtimeModules.length > 0 then
      [prefixLines pfx (String.join ctx.runtimeModules),
        "/************************************************************************/\n"]
    else []
  let tailSegs :=
    match inlinedModules with
    | some im => inlinedEntriesSegs im allStrict chunkModules.isSome renderModule
    | none => [genericStartupSeg pfx bootstrap]
  let closeSegs := if ctx.iife then ["/******/ \x7d)()\n"] else []
  openSegs ++ strictSegs ++ modulesSegs ++ headerSegs ++ runtimeSegs ++ tailSegs ++ closeSegs

/-- The per-entry condition that disables inlining inside the entry loop:
an active incoming connection from another module, or (when the require
function is used) a `module`/`exports` requirement of the entry itself. -/
def badEntry (useRequire : Bool) (e : JsModule) : Bool :=
  e.incomingConnections.any (fun c => c.originModule && c.active) ||
    (useRequire &&
      (e.runtimeRequirements.contains RG.module ||
        e.runtimeRequirements.contains RG.exports))

/-- The entry loop clears `allowInlineStartup` exactly for an entry with an
active incoming connection from another module, or — when the require
function is in use — an entry that itself needs `module`/`exports`. -/
theorem renderEntryStartup_allow (rr : List RG) (ur rs re : Bool)
    (mods : List JsModule) : ∀ (i : Nat) (allow : Bool) (acc : List String),
    (renderEntryStartup rr ur rs re mods i allow acc).2 =
      (allow && mods.all (fun e => !(badEntry ur e))) := by
  induction mods with
  | nil => intro i allow acc; simp [renderEntryStartup]
  | cons e rest ih =>
    intro i allow acc
    rw [renderEntryStartup]
    simp only []
    cases allow with
    | false =>
      have hc : (false && e.incomingConnections.any fun c => c.originModule && c.active) = false := by
        simp
      rw [hc]
      simp only [Bool.false_and, if_false, Bool.false_eq_true]
      cases ur with
      | true => simp [ih]
      | false =>
        cases rs with
        | true => simp [ih]
        | false => simp [ih]
    | true =>
      by_cases hinc : (e.incomingConnections.any fun c => c.originModule && c.active) = true
      · simp only [hinc, Bool.true_and, if_true, ite_true]
        cases ur with
        | true => simp [ih, badEntry, hinc]
        | false =>
          cases rs with
          | true => simp [ih, badEntry, hinc]
          | false => simp [ih, badEntry, hinc]
      · have hincf : (e.incomingConnections.any fun c => c.originModule && c.active) = false :=
          Bool.not_eq_true _ ▸ (by simpa using hinc)
        simp only [hincf, Bool.true_and, Bool.and_false, if_false, Bool.false_eq_true]
        cases ur with
        | true =>
          by_cases hm : RG.module ∈ e.runtimeRequirements
          · simp [hm, ih, badEntry, hincf]
          · by_cases hx : RG.exports ∈ e.runtimeRequirements
            · simp [hm, hx, ih, badEntry, hincf]
            · simp [hm, hx, ih, badEntry, hincf]
        | false =>
          cases rs with
          | true => simp [ih, badEntry, hincf]
          | false => simp [ih, badEntry, hincf]

/-- `badEntry` is false exactly when the entry has no active incoming
connection from another module and requires neither `module` nor `exports`,
provided the chunk's tree requirements cover the entry's own requirements
(so `useRequire` is on whenever the entry needs `module`/`exports`). -/
theorem badEntry_false_iff (e : JsModule) (ur : Bool)
    (hm : RG.module ∈ e.runtimeRequirements → ur = true)
    (hx : RG.exports ∈ e.runtimeRequirements → ur = true) :
    badEntry ur e = false ↔
      ((∀ c ∈ e.incomingConnections, c.originModule = true → c.active = false) ∧
        RG.module ∉ e.runtimeRequirements ∧ RG.exports ∉ e.runtimeRequirements) := by
  unfold badEntry
  by_cases hmod : RG.module ∈ e.runtimeRequirements
  · have hur := hm hmod
    subst hur
    simp [hmod]
  · by_cases hexp : RG.exports ∈ e.runtimeRequirements
    · have hur := hx hexp
      subst hur
      simp [hmod, hexp]
    · simp [hmod, hexp]

/-- The exact characterization of `allowInlineStartup` for a default-startup
chunk with at least one entry module. -/
theorem renderBootstrap_allowInline_iff (rr : List RG) (entryModules : List JsModule)
    (bf : String → List String → String) (rb : String)
    (hnd : rr.contains RG.startupNoDefault = false)
    (hne : entryModules ≠ [])
    (hcoh : ∀ e ∈ entryModules,
      (e.runtimeRequirements.contains RG.module = true →
        rr.contains RG.module = true) ∧
      (e.runtimeRequirements.contains RG.exports = true →
        rr.contains RG.exports = true)) :
    (renderBootstrap rr entryModules bf rb).allowInlineStartup = true ↔
      (rr.contains RG.moduleFactories = false ∧
       rr.contains RG.moduleCache = false ∧
       rr.contains RG.interceptModuleExecution = false ∧
       rr.contains RG.returnExportsFromRuntime = false ∧
       rr.contains RG.startup = false ∧
       ∀ e ∈ entryModules,
         (e.incomingConnections.any fun c => c.originModule && c.active) = false ∧
         e.runtimeRequirements.contains RG.module = false ∧
         e.runtimeRequirements.contains RG.exports = false) := by
  have hlen : entryModules.length > 0 := List.length_pos.mpr hne
  have hnd' : RG.startupNoDefault ∉ rr := by simpa using hnd
  unfold renderBootstrap
  cases hstart : rr.contains RG.startup with
  | true =>
    have hstart' : RG.startup ∈ rr := by simpa using hstart
    simp [hnd', hlen, hstart']
  | false =>
    have hstart' : RG.startup ∉ rr := by simpa using hstart
    cases hmf : rr.contains RG.moduleFactories with
    | true =>
      have hmf' : RG.moduleFactories ∈ rr := by simpa using hmf
      simp [hnd', hlen, hstart', hmf', renderEntryStartup_allow]
    | false =>
      have hmf' : RG.moduleFactories ∉ rr := by simpa using hmf
      cases hmc : rr.contains RG.moduleCache with
      | true =>
        have hmc' : RG.moduleCache ∈ rr := by simpa using hmc
        simp [hnd', hlen, hstart', hmf', hmc', renderEntryStartup_allow]
      | false =>
        have hmc' : RG.moduleCache ∉ rr := by simpa using hmc
        cases him : rr.contains RG.interceptModuleExecution with
        | true =>
          have him' : RG.interceptModuleExecution ∈ rr := by simpa using him
          simp [hnd', hlen, hstart', hmf', hmc', him', renderEntryStartup_allow]
        | false =>
          have him' : RG.interceptModuleExecution ∉ rr := by simpa using him
          cases hre : rr.contains RG.returnExportsFromRuntime with
          | true =>
            have hre' : RG.returnExportsFromRuntime ∈ rr := by simpa using hre
            simp [hnd', hlen, hstart', hmf', hmc', him', hre',
              renderEntryStartup_allow]
          | false =>
            have hre' : RG.returnExportsFromRuntime ∉ rr := by simpa using hre
            simp [hnd', hlen, hstart', hmf', hmc', him', hre',
              renderEntryStartup_allow]
            constructor
            · intro h e he
              refine (badEntry_false_iff e _ ?_ ?_).mp (h e he)
              · intro hmm
                have h2 : RG.module ∈ rr := by simpa using (hcoh e he).1 (by simpa using hmm)
                simp [h2]
              · intro hxx
                have h2 : RG.exports ∈ rr := by simpa using (hcoh e he).2 (by simpa using hxx)
                simp [h2]
            · intro h e he
              refine (badEntry_false_iff e _ ?_ ?_).mpr (h e he)
              · intro hmm
                have h2 : RG.module ∈ rr := by simpa using (hcoh e he).1 (by simpa using hmm)
                simp [h2]
              · intro hxx
                have h2 : RG.exports ∈ rr := by simpa using (hcoh e he).2 (by simpa using hxx)
                simp [h2]

/-- `renderMain` ends (before the closing IIFE line) with the inlined
rendered entry modules when `allowInlineStartup` holds, and with the generic
prefixed `bootstrap.startup` block otherwise. -/
theorem renderMain_tail (ctx : RenderMainCtx)
    (rm : JsModule → RenderMode → Option String)
    (bf : String → List String → String) (rb : String) :
    (let bootstrap := renderBootstrap ctx.treeRuntimeRequirements ctx.entryModules bf rb
     let allStrict := ctx.allModules.all (·.strict)
     let pfx := if ctx.iife then "/******/ \t" else "/******/ "
     let renderList := if bootstrap.allowInlineStartup then
         ctx.allModules.filter (fun m => !ctx.entryModules.contains m)
       else ctx.allModules
     let chunkModules := Template.renderChunkModules renderList (·.id)
       (fun m => rm m (if allStrict then RenderMode.factoryStrict else RenderMode.factory))
       [] pfx
     ∃ pre, renderMain ctx rm bf rb =
       pre ++ (if bootstrap.allowInlineStartup then
           inlinedEntriesSegs ctx.entryModules allStrict chunkModules.isSome rm
         else [genericStartupSeg pfx bootstrap]) ++
         (if ctx.iife then ["/******/ \x7d)()\n"] else [])) := by
  simp only []
  cases hA : (renderBootstrap ctx.treeRuntimeRequirements ctx.entryModules bf rb).allowInlineStartup with
  | true =>
    unfold renderMain
    simp only [hA, ite_true, ite_false, Bool.false_eq_true]
    exact ⟨_, rfl⟩
  | false =>
    unfold renderMain
    simp only [hA, ite_true, ite_false, Bool.false_eq_true]
    exact ⟨_, rfl⟩

/-- Counterexample to C5 as stated: for a chunk whose only tree runtime
requirement is `startupNoDefault`, the per-entry checks are skipped
entirely — `allowInlineStartup` stays `true` even though the single entry
module has an active incoming connection from another module, which the
claim says must force it to `false`. -/
theorem claimC5_counterexample :
    (renderBootstrap [RG.startupNoDefault]
        [{ id := ModuleId.num 0
           strict := false
           incomingConnections := [{ originModule := true, active := true }]
           runtimeRequirements := [] }]
        (fun _ body => asString body) "").allowInlineStartup = true ∧
    ([{ originModule := true, active := true }] : List Connection).any
        (fun c => c.originModule && c.active) = true :=
  ⟨rfl, rfl⟩

/-- C5 (amended): for every chunk that renders the default startup
(`startupNoDefault` absent) and has at least one entry module, with the
entry's own `module`/`exports` requirements contained in the tree
requirements, `renderBootstrap` computes `allowInlineStartup = true` exactly
when the tree runtime requirements contain none of module-factories,
module-cache, intercept-module-execution, return-exports-from-runtime and
startup, and no entry module has an active incoming connection from another
module or itself requires `module`/`exports`; and `renderMain` emits the
inlined entry modules instead of the generic startup indirection exactly
when `allowInlineStartup` is true. -/
theorem claimC5_inline_startup (rr : List RG) (entryModules : List JsModule)
    (bf : String → List String → String) (rb : String)
    (hnd : rr.contains RG.startupNoDefault = false)
    (hne : entryModules ≠ [])
    (hcoh : ∀ e ∈ entryModules,
      (e.runtimeRequirements.contains RG.module = true →
        rr.contains RG.module = true) ∧
      (e.runtimeRequirements.contains RG.exports = true →
        rr.contains RG.exports = true)) :
    ((renderBootstrap rr entryModules bf rb).allowInlineStartup = true ↔
      (rr.contains RG.moduleFactories = false ∧
       rr.contains RG.moduleCache = false ∧
       rr.contains RG.interceptModuleExecution = false ∧
       rr.contains RG.returnExportsFromRuntime = false ∧
       rr.contains RG.startup = false ∧
       ∀ e ∈ entryModules,
         (e.incomingConnections.any fun c => c.originModule && c.active) = false ∧
         e.runtimeRequirements.contains RG.module = false ∧
         e.runtimeRequirements.contains RG.exports = false)) ∧
    (∀ (ctx : RenderMainCtx) (rm : JsModule → RenderMode → Option String),
      (let bootstrap := renderBootstrap ctx.treeRuntimeRequirements ctx.entryModules bf rb
       let allStrict := ctx.allModules.all (·.strict)
       let pfx := if ctx.iife then "/******/ \t" else "/******/ "
       let renderList := if bootstrap.allowInlineStartup then
           ctx.allModules.filter (fun m => !ctx.entryModules.contains m)
         else ctx.allModules
       let chunkModules := Template.renderChunkModules renderList (·.id)
         (fun m => rm m (if allStrict then RenderMode.factoryStrict else RenderMode.factory))
         [] pfx
       ∃ pre, renderMain ctx rm bf rb =
         pre ++ (if bootstrap.allowInlineStartup then
             inlinedEntriesSegs ctx.entryModules allStrict chunkModules.isSome rm
           else [genericStartupSeg pfx bootstrap]) ++
           (if ctx.iife then ["/******/ \x7d)()\n"] else []))) :=
  ⟨renderBootstrap_allowInline_iff rr entryModules bf rb hnd hne hcoh,
    fun ctx rm => renderMain_tail ctx rm bf rb⟩

/-- Witness for C5: a single unreferenced entry module with no runtime
requirements in a chunk with empty tree requirements is allowed to inline. -/
theorem claimC5_inline_startup_witness :
    (renderBootstrap []
        [{ id := ModuleId.num 0
           strict := false
           incomingConnections := []
           runtimeRequirements := [] }]
        (fun _ body => asString body) "").allowInlineStartup = true :=
  (claimC5_inline_startup []
      [{ id := ModuleId.num 0
         strict := false
         incomingConnections := []
         runtimeRequirements := [] }]
      (fun _ body => asString body) "" rfl (by simp)
      (fun e he => by
        simp at he
        subst he
        exact ⟨fun h => by simp at h, fun h => by simp at h⟩)).1.mpr
    ⟨rfl, rfl, rfl, rfl, rfl, by
      intro e he
      simp at he
      subst he
      exact ⟨rfl, rfl, rfl⟩⟩
